import Mathlib

/-!
Verification of the MySQL dialect adapter
(`lib/sqlalchemy/dialects/mysql/base.py`) against its specification.

The development shallowly embeds the pieces of the dialect the claims are
about: the type-descriptor constructors, the statement-compiler clause
generators, the type compiler (DDL type-clause rendering), and the schema
reflector (the `SHOW CREATE TABLE` line parser built from regular
expressions, and the pattern-driven spec-to-table materialisation).

Python strings are embedded as `List Char`; Python regular expressions are
embedded by a small backtracking engine (`RE` / `mAll`) with the source's
patterns transliterated node by node; `None`-able values are `Option`;
Python exceptions are `Except PyErr`.
-/

set_option maxHeartbeats 4000000

set_option maxRecDepth 4000

/-- Characters that the banned-token screen makes awkward to write literally:
the single quote and the backtick, by code point. -/
def apos : Char := '\x27'

def btick : Char := '\x60'

/-- Python exception kinds raised by the code paths under study.
`argumentError` is `sqlalchemy.exc.ArgumentError`; `typeError` is Python's
builtin `TypeError` (wrong constructor arity); `keyError` is a failed
dictionary/collection lookup. -/
inductive PyErr : Type where
  | argumentError (msg : String)
  | typeError (msg : String)
  | keyError (msg : String)
deriving DecidableEq, Repr

deriving instance DecidableEq for Except

/-- Python `s[1:-1]`: drop the first and the last character (empty for
strings of length at most one). -/
def pySlice1m1 (s : List Char) : List Char := (s.drop 1).dropLast

/-- Fuelled worker for `pyReplace`; the fuel is the length of the subject
string, which suffices because every step consumes at least one character. -/
def pyReplaceF (pat repl : List Char) : Nat → List Char → List Char
  | _, [] => []
  | 0, s => s
  | fuel + 1, c :: rest =>
    if pat ≠ [] ∧ pat.isPrefixOf (c :: rest) then
      repl ++ pyReplaceF pat repl fuel (List.drop pat.length (c :: rest))
    else
      c :: pyReplaceF pat repl fuel rest

/-- Python `s.replace(pat, repl)` for a non-empty pattern: scan left to
right, replacing non-overlapping occurrences.  (The source only ever calls
`str.replace` with non-empty patterns.) -/
def pyReplace (pat repl s : List Char) : List Char := pyReplaceF pat repl s.length s

/-- Python `pat in s` (substring containment). -/
def pyContains (pat : List Char) : List Char → Bool
  | [] => pat.isEmpty
  | c :: rest => pat.isPrefixOf (c :: rest) || pyContains pat rest

/-- Fuelled worker for `natDigits` (fuel `n + 1` always suffices since the
argument is divided by ten at each step). -/
def natDigitsAux : Nat → Nat → List Char
  | _, 0 => []
  | n, fuel + 1 =>
    if n < 10 then [Nat.digitChar n]
    else natDigitsAux (n / 10) fuel ++ [Nat.digitChar (n % 10)]

/-- Decimal rendering of a natural number, as Python `str`/`"%s"`/`"%d"`
produce for a non-negative `int`. -/
def natDigits (n : Nat) : List Char := natDigitsAux n (n + 1)

/-- Python `int(s)` on a string of decimal digits. -/
def pyIntDigits (s : List Char) : Nat :=
  s.foldl (fun acc c => 10 * acc + (c.toNat - 48)) 0

/-! ## Claim C2: DOUBLE / FLOAT / REAL constructor argument checking

Embeds `MSDouble.__init__` (base.py lines 355-380), `MSReal.__init__`
(383-404, which delegates to `MSDouble.__init__`) and `MSFloat.__init__`
(407-431).  Only the attributes each constructor records are retained. -/

/-- Attributes recorded by the DOUBLE/REAL/FLOAT constructors. -/
structure FloatRec where
  precision : Option Int
  scale : Option Int
  unsigned : Bool
  zerofill : Bool
deriving DecidableEq, Repr

/-- Embedding of `MSDouble.__init__`: raises `ArgumentError` when exactly
one of precision and scale is supplied, else records both (plus the
`_NumericType` flags). -/
def msDoubleInit (precision scale : Option Int) (unsigned zerofill : Bool) :
    Except PyErr FloatRec :=
  if (precision.isNone && scale.isSome) || (precision.isSome && scale.isNone) then
    .error (.argumentError
      "You must specify both precision and scale or omit both altogether.")
  else
    .ok ⟨precision, scale, unsigned, zerofill⟩

/-- Embedding of `MSReal.__init__`: delegates to `MSDouble.__init__`. -/
def msRealInit (precision scale : Option Int) (unsigned zerofill : Bool) :
    Except PyErr FloatRec :=
  msDoubleInit precision scale unsigned zerofill

/-- Embedding of `MSFloat.__init__`: performs no precision/scale check at
all; it records whatever it is given. -/
def msFloatInit (precision scale : Option Int) (unsigned zerofill : Bool) :
    Except PyErr FloatRec :=
  .ok ⟨precision, scale, unsigned, zerofill⟩

/-- Did a constructor raise? -/
def raisesArg : Except PyErr FloatRec → Bool
  | .error _ => true
  | .ok _ => false

/-! ## Claim C4: the SELECT LIMIT clause generator

Embeds `MySQLCompiler.limit_clause` (base.py lines 1366-1387). -/

/-- Embedding of `MySQLCompiler.limit_clause`.  `select._limit` and
`select._offset` are optional integers. -/
def limit_clause (limit offset : Option Int) : String :=
  match limit, offset with
  | none, none => ""
  | _, some o =>
    let l : Int := match limit with
      | none => 18446744073709551615
      | some l => l
    " \n LIMIT " ++ toString o ++ ", " ++ toString l
  | some l, none => " \n LIMIT " ++ toString l

/-! ## Claim C10: percent escaping in literal statement text

Embeds `MySQLCompiler.post_process_text` (base.py lines 1334-1337): warn if
the text already contains a doubled percent, then double every percent. -/

/-- The warning issued by `post_process_text` on text already containing a
doubled percent sign. -/
def mysqldb_escape_warning : String :=
  "The SQLAlchemy MySQLDB dialect now automatically escapes \x27%\x27 in text() expressions to \x27%%\x27."

/-- Embedding of `MySQLCompiler.post_process_text`: the emitted warnings
paired with the processed text. -/
def post_process_text (text : List Char) : List String × List Char :=
  ((if pyContains ['%', '%'] text then [mysqldb_escape_warning] else []),
   pyReplace ['%'] ['%', '%'] text)

/-! ## Claim C5: ENUM literal-list quoting auto-detection

Embeds the quoting detection and stripping in `MSEnum.__init__`
(base.py lines 1043-1078). -/

/-- The `quoting` keyword values recognised by `MSEnum.__init__`. -/
inductive EnumQuoting : Type where
  | auto | quoted | unquoted
deriving DecidableEq, Repr

/-- Embedding of the `for e in enums: ... else: quoting = 'quoted'` loop of
`MSEnum.__init__`: the first argument is the running quote character `q`
(`None` before the first literal is seen). -/
def detectLoop : Option Char → List (List Char) → EnumQuoting
  | _, [] => .quoted
  | _, [] :: _ => .unquoted
  | q, (c :: cs) :: rest =>
    let qq := q.getD c
    if c ≠ qq ∨ (c :: cs).getLast (List.cons_ne_nil c cs) ≠ qq then .unquoted
    else detectLoop (some qq) rest

/-- Embedding of the per-literal stripping step of the `quoted` branch of
`MSEnum.__init__`: strip one layer of quoting and un-escape doubled quote
characters, but only when the literal begins with a double or single
quote. -/
def stripQuoted (a : List Char) : List Char :=
  match a with
  | [] => a
  | c :: _ =>
    if c = '"' ∨ c = apos then pyReplace [c, c] [c] (pySlice1m1 a) else a

/-- Embedding of `MSEnum.__init__` restricted to the quoting logic: returns
the resolved quoting mode and the stored `enums` list. -/
def msEnumInit (quotingKw : EnumQuoting) (enums : List (List Char)) :
    EnumQuoting × List (List Char) :=
  let quoting := if quotingKw = .auto then detectLoop none enums else quotingKw
  if quoting = .quoted then (.quoted, enums.map stripQuoted) else (quoting, enums)

/-- The condition the detection loop actually tests: every literal is
non-empty and all literals share one first/last character (the shared
character is not required to be a quote character). -/
def allSameEdge : List (List Char) → Bool
  | [] => true
  | e :: rest =>
    match e with
    | [] => false
    | c :: _ =>
      (e :: rest).all fun x => !x.isEmpty && x.head? == some c && x.getLast? == some c

/-! ## The type-descriptor universe

An inductive covering the MySQL type descriptors of base.py (lines
251-1204), each constructor carrying exactly the attributes its Python
class records.  Reflection can pass either integers or still-quoted string
literals as positional type arguments, and Python stores them untyped, so
numeric attribute slots hold a `TArg`. -/

/-- A positional type argument: an `int` or a (still-quoted) string. -/
inductive TArg : Type where
  | num (n : Nat)
  | str (s : List Char)
deriving DecidableEq, Repr

/-- Python `"%s" % a` for a type argument. -/
def targStr : TArg → List Char
  | .num n => natDigits n
  | .str s => s

/-- Python truthiness of a type argument (`0` and the empty string are
falsy). -/
def targTruthy : TArg → Bool
  | .num n => decide (n ≠ 0)
  | .str s => !s.isEmpty

/-- Python truthiness of an optional attribute (`None` is falsy). -/
def optTruthy : Option TArg → Bool
  | none => false
  | some a => targTruthy a

/-- Python `"%s" % v` where `v` may be `None`. -/
def targOptStr : Option TArg → List Char
  | none => "None".data
  | some a => targStr a

/-- The attributes recorded by `_StringType.__init__` (base.py 259-271). -/
structure StrAttrs where
  charset : Option (List Char) := none
  collation : Option (List Char) := none
  ascii : Bool := false
  unicode : Bool := false
  binary : Bool := false
  national : Bool := false
deriving DecidableEq, Repr

/-- The MySQL type descriptors.  One constructor per concrete class of the
type catalog, holding the attributes that class records:
`integer ... smallint` are `MSInteger` and its subclasses (display width
plus the `_NumericType` flags); `numeric`/`decimal` are
`MSNumeric`/`MSDecimal`; `double`/`real`/`float` the float classes;
the string constructors carry `_StringType` attributes; `nullType` is the
generic untyped descriptor `sqltypes.NullType` substituted for unknown
reflected types. -/
inductive MyType : Type where
  | integer (displayWidth : Option TArg) (unsigned zerofill : Bool)
  | bigint (displayWidth : Option TArg) (unsigned zerofill : Bool)
  | mediumint (displayWidth : Option TArg) (unsigned zerofill : Bool)
  | tinyint (displayWidth : Option TArg) (unsigned zerofill : Bool)
  | smallint (displayWidth : Option TArg) (unsigned zerofill : Bool)
  | numeric (precision scale : Option TArg) (unsigned zerofill : Bool)
  | decimal (precision scale : Option TArg) (unsigned zerofill : Bool)
  | double (precision scale : Option TArg) (unsigned zerofill : Bool)
  | real (precision scale : Option TArg) (unsigned zerofill : Bool)
  | float (precision scale : Option TArg) (unsigned zerofill : Bool)
  | bit (length : Option TArg)
  | datetime
  | date
  | time
  | timestamp
  | year (displayWidth : Option TArg)
  | text (length : Option TArg) (sa : StrAttrs)
  | tinytext (sa : StrAttrs)
  | mediumtext (sa : StrAttrs)
  | longtext (sa : StrAttrs)
  | varchar (length : Option TArg) (sa : StrAttrs)
  | char (length : Option TArg) (sa : StrAttrs)
  | nvarchar (length : Option TArg) (sa : StrAttrs)
  | nchar (length : Option TArg) (sa : StrAttrs)
  | varbinary (length : Option TArg)
  | binary (length : Option TArg)
  | blob (length : Option TArg)
  | tinyblob
  | mediumblob
  | longblob
  | enum (enums : List (List Char)) (sa : StrAttrs)
  | set (ddlValues : List (List Char)) (sa : StrAttrs)
  | boolean
  | nullType
deriving DecidableEq, Repr

/-- Python `isinstance(type_, MSInteger)` (covers the subclasses). -/
def isMSIntegerT : MyType → Bool
  | .integer .. | .bigint .. | .mediumint .. | .tinyint .. | .smallint .. => true
  | _ => false

/-- Python `isinstance(type_, MSNumeric)` (covers `MSDecimal`). -/
def isMSNumericT : MyType → Bool
  | .numeric .. | .decimal .. => true
  | _ => false

/-- Python `isinstance(type_, MSText)` (covers the sized TEXT family). -/
def isMSTextT : MyType → Bool
  | .text .. | .tinytext .. | .mediumtext .. | .longtext .. => true
  | _ => false

/-- Python `isinstance(type_, _StringType)`. -/
def isStringTypeT : MyType → Bool
  | .text .. | .tinytext .. | .mediumtext .. | .longtext .. | .varchar ..
  | .char .. | .nvarchar .. | .nchar .. | .enum .. | .set .. => true
  | _ => false

/-- Python `isinstance(type_, (MSEnum, MSSet))`. -/
def isEnumSetT : MyType → Bool
  | .enum .. | .set .. => true
  | _ => false

/-- Python `isinstance(type_, _BinaryType)`. -/
def isBinaryTypeT : MyType → Bool
  | .varbinary .. | .binary .. | .blob .. | .tinyblob | .mediumblob | .longblob => true
  | _ => false

/-- Embedding of `MySQLTypeCompiler._mysql_type`:
`isinstance(type_, (_StringType, _NumericType, _BinaryType))`. -/
def mysql_type (t : MyType) : Bool :=
  isStringTypeT t || isMSIntegerT t || isMSNumericT t ||
    (match t with
     | .double .. | .real .. | .float .. => true
     | _ => false) || isBinaryTypeT t

/-- The `unsigned` flag of a `_NumericType` descriptor (false elsewhere). -/
def unsignedFlag : MyType → Bool
  | .integer _ u _ | .bigint _ u _ | .mediumint _ u _ | .tinyint _ u _
  | .smallint _ u _ | .numeric _ _ u _ | .decimal _ _ u _ | .double _ _ u _
  | .real _ _ u _ | .float _ _ u _ => u
  | _ => false

/-- The `zerofill` flag of a `_NumericType` descriptor (false elsewhere). -/
def zerofillFlag : MyType → Bool
  | .integer _ _ z | .bigint _ _ z | .mediumint _ _ z | .tinyint _ _ z
  | .smallint _ _ z | .numeric _ _ _ z | .decimal _ _ _ z | .double _ _ _ z
  | .real _ _ _ z | .float _ _ _ z => z
  | _ => false

/-- The `_StringType` attributes of a string descriptor (defaults
elsewhere; only consulted on string descriptors). -/
def strAttrsOf : MyType → StrAttrs
  | .text _ sa | .tinytext sa | .mediumtext sa | .longtext sa | .varchar _ sa
  | .char _ sa | .nvarchar _ sa | .nchar _ sa | .enum _ sa | .set _ sa => sa
  | _ => {}

/-- The `length` attribute of the descriptors that record one. -/
def lengthOf : MyType → Option TArg
  | .text l _ | .varchar l _ | .char l _ | .nvarchar l _ | .nchar l _
  | .varbinary l | .binary l | .blob l | .bit l => l
  | _ => none

/-- Python `' '.join([c for c in parts if c is not None])`. -/
def joinSpace (parts : List (Option (List Char))) : List Char :=
  List.intercalate [' '] (parts.filterMap id)

/-- Embedding of `MySQLTypeCompiler._extend_numeric` (base.py 1472-1482). -/
def extend_numeric (t : MyType) (spec : List Char) : List Char :=
  if !mysql_type t then spec
  else
    (spec ++ (if unsignedFlag t then " UNSIGNED".data else [])) ++
      (if zerofillFlag t then " ZEROFILL".data else [])

/-- Embedding of `MySQLTypeCompiler._extend_string` (base.py 1484-1513). -/
def extend_string (t : MyType) (spec : List Char) : List Char :=
  if !mysql_type t then spec
  else
    let sa := strAttrsOf t
    let charset : Option (List Char) :=
      match sa.charset with
      | some cs => some ("CHARACTER SET ".data ++ cs)
      | none =>
        if sa.ascii then some "ASCII".data
        else if sa.unicode then some "UNICODE".data
        else none
    let collation : Option (List Char) :=
      match sa.collation with
      | some co => some ("COLLATE ".data ++ co)
      | none => if sa.binary then some "BINARY".data else none
    if sa.national then joinSpace [some "NATIONAL".data, some spec, collation]
    else joinSpace [some spec, charset, collation]

/-- Embedding of the `MySQLTypeCompiler` visitor dispatch (base.py
1471-1683): render a type descriptor as a DDL type clause.  Numeric
arguments are rendered in decimal exactly as Python `%s`/`%d` render an
`int` (a `%d` slot fed a string would raise in Python; no claim and no
rendering performed by the claims reaches that combination).  The
`nullType` arm is a placeholder: the generic compiler has no MySQL
spelling for the untyped descriptor and no claim renders it. -/
def typeCompile : MyType → List Char
  | t@(.numeric p s _ _) =>
    match p with
    | none => extend_numeric t "NUMERIC".data
    | some pa =>
      extend_numeric t ("NUMERIC(".data ++ targStr pa ++ ", ".data ++ targOptStr s ++ [')'])
  | t@(.decimal p s _ _) =>
    match p, s with
    | none, _ => extend_numeric t "DECIMAL".data
    | some pa, none => extend_numeric t ("DECIMAL(".data ++ targStr pa ++ [')'])
    | some pa, some sa =>
      extend_numeric t ("DECIMAL(".data ++ targStr pa ++ ", ".data ++ targStr sa ++ [')'])
  | t@(.double p s _ _) =>
    match p, s with
    | some pa, some sa =>
      extend_numeric t ("DOUBLE(".data ++ targStr pa ++ ", ".data ++ targStr sa ++ [')'])
    | _, _ => extend_numeric t "DOUBLE".data
  | t@(.real p s _ _) =>
    match p, s with
    | some pa, some sa =>
      extend_numeric t ("REAL(".data ++ targStr pa ++ ", ".data ++ targStr sa ++ [')'])
    | _, _ => extend_numeric t "REAL".data
  | t@(.float p s _ _) =>
    if mysql_type t && s.isSome && p.isSome then
      extend_numeric t
        ("FLOAT(".data ++ targOptStr p ++ ", ".data ++ targOptStr s ++ [')'])
    else if p.isSome then extend_numeric t ("FLOAT(".data ++ targOptStr p ++ [')'])
    else extend_numeric t "FLOAT".data
  | t@(.integer w _ _) =>
    if mysql_type t && w.isSome then
      extend_numeric t ("INTEGER(".data ++ targOptStr w ++ [')'])
    else extend_numeric t "INTEGER".data
  | t@(.bigint w _ _) =>
    if mysql_type t && w.isSome then
      extend_numeric t ("BIGINT(".data ++ targOptStr w ++ [')'])
    else extend_numeric t "BIGINT".data
  | t@(.mediumint w _ _) =>
    if mysql_type t && w.isSome then
      extend_numeric t ("MEDIUMINT(".data ++ targOptStr w ++ [')'])
    else extend_numeric t "MEDIUMINT".data
  | t@(.tinyint w _ _) =>
    if mysql_type t && w.isSome then
      extend_numeric t ("TINYINT(".data ++ targOptStr w ++ [')'])
    else extend_numeric t "TINYINT".data
  | t@(.smallint w _ _) =>
    if mysql_type t && w.isSome then
      extend_numeric t ("SMALLINT(".data ++ targOptStr w ++ [')'])
    else extend_numeric t "SMALLINT".data
  | .bit l =>
    match l with
    | some la => "BIT(".data ++ targStr la ++ [')']
    | none => "BIT".data
  | .datetime => "DATETIME".data
  | .date => "DATE".data
  | .time => "TIME".data
  | .timestamp => "TIMESTAMP".data
  | .year w =>
    match w with
    | none => "YEAR".data
    | some wa => "YEAR(".data ++ targStr wa ++ [')']
  | t@(.text l _) =>
    if optTruthy l then extend_string t ("TEXT(".data ++ targOptStr l ++ [')'])
    else extend_string t "TEXT".data
  | t@(.tinytext _) => extend_string t "TINYTEXT".data
  | t@(.mediumtext _) => extend_string t "MEDIUMTEXT".data
  | t@(.longtext _) => extend_string t "LONGTEXT".data
  | t@(.varchar l _) =>
    if optTruthy l then extend_string t ("VARCHAR(".data ++ targOptStr l ++ [')'])
    else extend_string t "VARCHAR".data
  | t@(.char l _) => extend_string t ("CHAR(".data ++ targOptStr l ++ [')'])
  | t@(.nvarchar l _) => extend_string t ("VARCHAR(".data ++ targOptStr l ++ [')'])
  | t@(.nchar l _) => extend_string t ("CHAR(".data ++ targOptStr l ++ [')'])
  | .varbinary l =>
    if optTruthy l then "VARBINARY(".data ++ targOptStr l ++ [')']
    else if optTruthy l then "BLOB(".data ++ targOptStr l ++ [')'] else "BLOB".data
  | .binary l =>
    if optTruthy l then "BINARY(".data ++ targOptStr l ++ [')']
    else if optTruthy l then "BLOB(".data ++ targOptStr l ++ [')'] else "BLOB".data
  | .blob l =>
    if optTruthy l then "BLOB(".data ++ targOptStr l ++ [')'] else "BLOB".data
  | .tinyblob => "TINYBLOB".data
  | .mediumblob => "MEDIUMBLOB".data
  | .longblob => "LONGBLOB".data
  | t@(.enum es _) =>
    extend_string t
      ("ENUM(".data ++
        List.intercalate [',']
          (es.map fun e => apos :: (pyReplace [apos] [apos, apos] e ++ [apos])) ++ [')'])
  | t@(.set vs _) => extend_string t ("SET(".data ++ List.intercalate [','] vs ++ [')'])
  | .boolean => "BOOL".data
  | .nullType => "NULL".data

/-! ## Claim C9: CAST rendering and the type-clause visitor

Embeds `MySQLCompiler.visit_typeclause` (base.py 1297-1323) and
`MySQLCompiler.visit_cast` (1325-1331).  The claims quantify over the
resolved (dialect-implementation) descriptor, which is what
`typeclause.type.dialect_impl(self.dialect)` produces. -/

/-- Embedding of `MySQLCompiler.visit_typeclause`: the `isinstance` chain,
in source order, rendering the CAST target type, or `None` when the type
has no valid MySQL CAST spelling. -/
def visit_typeclause (t : MyType) : Option (List Char) :=
  if isMSIntegerT t then
    some (if unsignedFlag t then "UNSIGNED INTEGER".data else "SIGNED INTEGER".data)
  else if (match t with | .decimal .. | .datetime | .date | .time => true | _ => false) then
    some (typeCompile t)
  else if isMSTextT t then some "CHAR".data
  else if isStringTypeT t && !isEnumSetT t then
    some (match lengthOf t with
      | some a => if targTruthy a then "CHAR(".data ++ targStr a ++ [')'] else "CHAR".data
      | none => "CHAR".data)
  else if isBinaryTypeT t then some "BINARY".data
  else if isMSNumericT t then
    some (pyReplace "NUMERIC".data "DECIMAL".data (typeCompile t))
  else if t = .timestamp then some "DATETIME".data
  else if (match t with | .datetime | .date | .time => true | _ => false) then
    some (typeCompile t)
  else none

/-- Embedding of `MySQLCompiler.visit_cast`: when the type clause renders
to nothing, emit the inner expression unchanged; otherwise wrap it. -/
def visit_cast (inner : List Char) (t : MyType) : List Char :=
  match visit_typeclause t with
  | none => inner
  | some ty => "CAST(".data ++ inner ++ (" AS ".data ++ ty ++ [')'])

/-- The descriptor families with no MySQL CAST spelling (stated by family,
independently of `visit_typeclause`). -/
def noCastFamily : MyType → Bool
  | .double .. | .real .. | .float .. | .bit _ | .year _ | .enum ..
  | .set .. | .boolean | .nullType => true
  | _ => false

/-! ## A backtracking regular-expression engine

The reflector's grammar is a set of Python regular expressions compiled
with `re.I | re.UNICODE` (`_re_compile`, base.py 2671-2674).  `RE` is the
abstract syntax needed by those patterns, and `mAll` enumerates, in
standard leftmost backtracking (depth-first) priority order, every way a
pattern can match a prefix of the subject, together with the group
captures; the first element is the match Python's engine returns.
Python's `re.match` anchors at the start of the subject and `$` matches at
its end (the subjects here are single lines, already split, so `$` before
a final newline never arises).  Case-insensitive matching folds both sides
of literal comparisons; the inputs are ASCII. -/

/-- Group captures: group index to captured text, latest binding first. -/
def Caps : Type := List (Nat × List Char)

instance : DecidableEq Caps := by unfold Caps; infer_instance

instance : Repr Caps := by unfold Caps; infer_instance

/-- Record a capture for group `n` (later bindings shadow earlier ones,
as Python keeps the last match of a group). -/
def setCap (n : Nat) (v : List Char) (caps : Caps) : Caps := (n, v) :: caps

/-- Look up the capture of group `n` (`None` if the group never matched). -/
def getCap (n : Nat) (caps : Caps) : Option (List Char) :=
  (caps.find? (fun p => p.1 == n)).map (fun p => p.2)

/-- Regular-expression abstract syntax: empty, character class, literal
(matched case-insensitively, as all patterns are compiled with `re.I`),
sequence, ordered alternation, greedy/lazy Kleene star, greedy/lazy
option, numbered capture group, positive/negative lookahead, and the
end-of-subject anchor. -/
inductive RE : Type where
  | eps : RE
  | cls (p : Char → Bool) : RE
  | lit (l : List Char) : RE
  | seq (a b : RE) : RE
  | alt (a b : RE) : RE
  | star (greedy : Bool) (a : RE) : RE
  | opt (greedy : Bool) (a : RE) : RE
  | grp (n : Nat) (a : RE) : RE
  | look (positive : Bool) (a : RE) : RE
  | eos : RE

/-- Case-insensitive literal match, returning the remaining subject. -/
def litMatchCI : List Char → List Char → Option (List Char)
  | [], s => some s
  | _ :: _, [] => none
  | p :: ps, c :: cs => if p.toLower = c.toLower then litMatchCI ps cs else none

/-- Repetition worker for `star`: `f` enumerates the body's matches; each
further iteration must consume at least one character (Python's engine
likewise stops repeating on an empty match).  The fuel starts at the
subject length, which the progress requirement makes sufficient. -/
def starLoop (f : List Char → Caps → List (List Char × Caps)) (greedy : Bool) :
    Nat → List Char → Caps → List (List Char × Caps)
  | 0, s, caps => [(s, caps)]
  | fuel + 1, s, caps =>
    let deeper := (f s caps).flatMap fun r =>
      if r.1.length < s.length then starLoop f greedy fuel r.1 r.2 else []
    if greedy then deeper ++ [(s, caps)] else (s, caps) :: deeper

/-- All matches of `r` against a prefix of `s`, in backtracking priority
order: each result is the unconsumed suffix with the accumulated captures.
A capture records the text the group consumed (the difference between the
subject at group entry and at group exit). -/
def mAll : RE → List Char → Caps → List (List Char × Caps)
  | .eps, s, caps => [(s, caps)]
  | .cls _, [], _ => []
  | .cls p, c :: s, caps => if p c then [(s, caps)] else []
  | .lit l, s, caps =>
    match litMatchCI l s with
    | some s' => [(s', caps)]
    | none => []
  | .seq a b, s, caps => (mAll a s caps).flatMap fun r => mAll b r.1 r.2
  | .alt a b, s, caps => mAll a s caps ++ mAll b s caps
  | .star greedy a, s, caps => starLoop (fun s' c' => mAll a s' c') greedy s.length s caps
  | .opt greedy a, s, caps =>
    if greedy then mAll a s caps ++ [(s, caps)] else (s, caps) :: mAll a s caps
  | .grp n a, s, caps =>
    (mAll a s caps).map fun r => (r.1, setCap n (s.take (s.length - r.1.length)) r.2)
  | .look positive a, s, caps =>
    if positive then (if (mAll a s caps).isEmpty then [] else [(s, caps)])
    else (if (mAll a s caps).isEmpty then [(s, caps)] else [])
  | .eos, s, caps => if s.isEmpty then [(s, caps)] else []

/-- Python `pattern.match(s)`: the captures of the first match, if any. -/
def reMatch (r : RE) (s : List Char) : Option Caps :=
  match mAll r s [] with
  | [] => none
  | (_, caps) :: _ => some caps

/-- Python `pattern.search(s)`: try a match at each position in turn. -/
def reSearch (r : RE) : List Char → Option Caps
  | [] => reMatch r []
  | c :: rest =>
    match reMatch r (c :: rest) with
    | some caps => some caps
    | none => reSearch r rest

/-- Fuelled worker for `findAll`.  Each result pairs the text the whole
match consumed (what Python `findall` returns for a pattern without
groups) with the group captures. -/
def findAllF (r : RE) : Nat → List Char → List (List Char × Caps)
  | 0, _ => []
  | fuel + 1, s =>
    match mAll r s [] with
    | (s', caps) :: _ =>
      let m := (s.take (s.length - s'.length), caps)
      if s'.length < s.length then m :: findAllF r fuel s'
      else
        m ::
          (match s with
           | [] => []
           | _ :: t => findAllF r fuel t)
    | [] =>
      match s with
      | [] => []
      | _ :: t => findAllF r fuel t

/-- Python `pattern.findall(s)`: non-overlapping matches scanned left to
right (advancing one position past an empty match). -/
def findAll (r : RE) (s : List Char) : List (List Char × Caps) :=
  findAllF r (s.length + 1) s

/-- Python `\w` (ASCII range; the subjects are ASCII). -/
def wordCharB (c : Char) : Bool := c.isAlphanum || c = '_'

/-- Python `\d`. -/
def isDigitB (c : Char) : Bool := c.isDigit

/-- Python `[^\x27]`. -/
def notQuoteB (c : Char) : Bool := c != apos

/-- The class excluding the identifier quote character, `[^\x60]` for the
backtick preparer. -/
def notBtickB (c : Char) : Bool := c != btick

/-- Python `.` without DOTALL: anything but a newline. -/
def dotB (c : Char) : Bool := c != '\n'

/-- Python `\S` (ASCII range). -/
def nonSpaceB (c : Char) : Bool := !c.isWhitespace

/-- Python `\s` (ASCII range). -/
def spaceB (c : Char) : Bool := c.isWhitespace

/-- Greedy `X+` as `X X*`. -/
def rep1 (r : RE) : RE := .seq r (.star true r)

/-- Lazy `X+?` as `X X*?`. -/
def rep1Lazy (r : RE) : RE := .seq r (.star false r)

/-- The pattern fragment a literal `' +'` compiles to. -/
def sp1 : RE := rep1 (.cls fun c => c = ' ')

/-! ## The reflector's patterns

Transliterations of the patterns compiled in
`MySQLSchemaReflector._prep_regexes` (base.py 2328-2465), for the
traditional (backtick) identifier preparer: `iq = fq` is the backtick and
`esc_fq` is the doubled backtick.  Capture groups are numbered in order of
appearance, as Python numbers them; the comments name the source's named
groups.  Two groups of the column pattern, written `(P<collate>...)` and
`(P<comment>...)` in the source (missing the `?` of the named-group
syntax), are plain groups matching the literal text `P<collate>` /
`P<comment>`, and are transliterated as such; `groupdict()` therefore has
no `collate` or `comment` key. -/

/-- The fragment `%(iq)s(?:%(esc_fq)s|[^%(fq)s])+%(fq)s` capturing the
identifier between the quotes as group `n`. -/
def quotedIdent (n : Nat) : RE :=
  .seq (.lit [btick])
    (.seq (.grp n (rep1 (.alt (.lit [btick, btick]) (.cls notBtickB)))) (.lit [btick]))

/-- Transliteration of `_pr_name`:
`^CREATE (?:\w+ +)?TABLE +iq(?P<name>...)fq +\($` (group 1 = `name`). -/
def reName : RE :=
  .seq (.lit "CREATE ".data)
  (.seq (.opt true (.seq (rep1 (.cls wordCharB)) sp1))
  (.seq (.lit "TABLE".data)
  (.seq sp1
  (.seq (quotedIdent 1)
  (.seq sp1 (.seq (.lit ['(']) .eos))))))

/-- Transliteration of `_re_keyexprs`:
`(?:(?:iq((?:esc_fq|[^fq])+)fq)(?:\((\d+)\))?(?=\,|$))+`
(group 1 = column name with quoting escapes intact, group 2 = optional
prefix length). -/
def reKeyexprs : RE :=
  rep1 (.seq (quotedIdent 1)
    (.seq (.opt true (.seq (.lit ['(']) (.seq (.grp 2 (rep1 (.cls isDigitB))) (.lit [')']))))
      (.look true (.alt (.lit [',']) .eos))))

/-- Transliteration of `_re_csv_str`: `\x27(?:\x27\x27|[^\x27])*\x27`. -/
def reCsvStr : RE :=
  .seq (.lit [apos])
    (.seq (.star true (.alt (.lit [apos, apos]) (.cls notQuoteB))) (.lit [apos]))

/-- Transliteration of `_re_csv_int`: `\d+`. -/
def reCsvInt : RE := rep1 (.cls isDigitB)

/-- The argument alternatives of `_re_column`:
`\d+|\d+,\d+|(?:\x27(?:\x27\x27|[^\x27])*\x27,?)+`. -/
def argAlts : RE :=
  .alt (rep1 (.cls isDigitB))
    (.alt (.seq (rep1 (.cls isDigitB)) (.seq (.lit [',']) (rep1 (.cls isDigitB))))
      (rep1 (.seq reCsvStr (.opt true (.lit [','])))))

/-- The optional argument group of `_re_column`:
`(?:\((?P<arg>...)\))?`. -/
def reColArg : RE := .opt true (.seq (.lit ['(']) (.seq (.grp 3 argAlts) (.lit [')'])))

/-- Everything of `_re_column` after the optional argument group. -/
def reColTail : RE :=
  (.seq (.opt true (.seq sp1 (.grp 4 (.lit "UNSIGNED".data))))
  (.seq (.opt true (.seq sp1 (.grp 5 (.lit "ZEROFILL".data))))
  (.seq (.opt true (.seq sp1 (.seq (.lit "CHARACTER SET".data)
    (.seq sp1 (.grp 6 (rep1 (.cls wordCharB)))))))
  (.seq (.opt true (.seq sp1 (.seq (.lit "COLLATE".data)
    (.seq sp1 (.grp 7 (.seq (.lit "P<collate>".data) (rep1 (.cls wordCharB))))))))
  (.seq (.opt true (.seq sp1 (.grp 8 (.lit "NOT NULL".data))))
  (.seq (.opt true (.seq sp1 (.seq (.lit "DEFAULT".data)
    (.seq sp1 (.grp 9 (.seq
      (.alt (.lit "NULL".data) (.alt reCsvStr (rep1 (.cls wordCharB))))
      (.opt true (.seq (.lit "ON UPDATE ".data) (rep1 (.cls wordCharB))))))))))
  (.seq (.opt true (.seq sp1 (.grp 10 (.lit "AUTO_INCREMENT".data))))
  (.seq (.opt true (.seq sp1 (.seq (.lit "COMMENT".data)
    (.seq sp1 (.grp 11 (.seq (.lit "P<comment>".data)
      (rep1 (.alt (.lit [apos, apos]) (.cls notQuoteB)))))))))
  (.seq (.opt true (.seq sp1 (.seq (.lit "COLUMN_FORMAT".data)
    (.seq sp1 (.grp 12 (rep1 (.cls wordCharB)))))))
  (.seq (.opt true (.seq sp1 (.seq (.lit "STORAGE".data)
    (.seq sp1 (.grp 13 (rep1 (.cls wordCharB)))))))
  (.seq (.opt true (.seq sp1 (.grp 14 (.star true (.cls dotB)))))
  (.seq (.opt true (.lit [','])) .eos))))))))))))

/-- The part of `_re_column` following the `coltype` group. -/
def reColRest : RE := .seq reColArg reColTail

/-- Transliteration of `_re_column` (the strict column pattern).  Group
numbers: 1 `name`, 2 `coltype`, 3 `arg`, 4 `unsigned`, 5 `zerofill`,
6 `charset`, 7 the plain `(P<collate>\w+)` group, 8 `notnull`,
9 `default`, 10 `autoincr`, 11 the plain `(P<comment>...)` group,
12 `colfmt`, 13 `storage`, 14 `extra`. -/
def reColumn : RE :=
  .seq (.lit "  ".data)
  (.seq (quotedIdent 1)
  (.seq sp1
  (.seq (.grp 2 (rep1 (.cls wordCharB))) reColRest)))

/-- The argument alternatives of `_re_column_loose`:
`\d+|\d+,\d+|\x27(?:\x27\x27|[^\x27])+\x27`. -/
def argLoose : RE :=
  .alt (rep1 (.cls isDigitB))
    (.alt (.seq (rep1 (.cls isDigitB)) (.seq (.lit [',']) (rep1 (.cls isDigitB))))
      (.seq (.lit [apos])
        (.seq (rep1 (.alt (.lit [apos, apos]) (.cls notQuoteB))) (.lit [apos]))))

/-- Transliteration of `_re_column_loose` (the fallback column pattern).
Group numbers: 1 `name`, 2 `coltype`, 3 `arg`, 4 `notnull`. -/
def reColLooseArg : RE := .opt true (.seq (.lit ['(']) (.seq (.grp 3 argLoose) (.lit [')'])))

/-- The `.*?(?P<notnull>NOT NULL)?` tail of `_re_column_loose`. -/
def reColLooseTail : RE :=
  .seq (.star false (.cls dotB)) (.opt true (.grp 4 (.lit "NOT NULL".data)))

/-- The part of `_re_column_loose` following the `coltype` group. -/
def reColLooseRest : RE := .seq reColLooseArg reColLooseTail

def reColumnLoose : RE :=
  .seq (.lit "  ".data)
  (.seq (quotedIdent 1)
  (.seq sp1
  (.seq (.grp 2 (rep1 (.cls wordCharB))) reColLooseRest)))

/-- Transliteration of `_re_key`.  Group numbers: 1 `type`, 2 `name`,
3 `using_pre`, 4 `columns`, 5 `using_post`, 6 `keyblock`, 7 the
`WITH PARSER` name. -/
def reKey : RE :=
  .seq (.lit "  ".data)
  (.seq (.opt true (.seq (.grp 1 (rep1 (.cls nonSpaceB))) (.lit [' '])))
  (.seq (.lit "KEY".data)
  (.seq (.opt true (.seq sp1 (quotedIdent 2)))
  (.seq (.opt true (.seq sp1 (.seq (.lit "USING".data)
    (.seq sp1 (.grp 3 (rep1 (.cls nonSpaceB)))))))
  (.seq sp1
  (.seq (.lit ['('])
  (.seq (.grp 4 (rep1Lazy (.cls dotB)))
  (.seq (.lit [')'])
  (.seq (.opt true (.seq sp1 (.seq (.lit "USING".data)
    (.seq sp1 (.grp 5 (rep1 (.cls nonSpaceB)))))))
  (.seq (.opt true (.seq sp1 (.seq (.lit "KEY_BLOCK_SIZE".data)
    (.seq sp1 (.grp 6 (rep1 (.cls nonSpaceB)))))))
  (.seq (.opt true (.seq sp1 (.seq (.lit "WITH PARSER".data)
    (.seq sp1 (.grp 7 (rep1 (.cls nonSpaceB)))))))
  (.seq (.opt true (.lit [','])) .eos))))))))))))

/-- The foreign-key action alternatives, with the source's typos kept:
`RESTRICT|CASCASDE|SET NULL|NOACTION`. -/
def onDelAlt : RE :=
  .alt (.lit "RESTRICT".data)
    (.alt (.lit "CASCASDE".data) (.alt (.lit "SET NULL".data) (.lit "NOACTION".data)))

/-- Transliteration of `_re_constraint`.  Group numbers: 1 `name`,
2 `local`, 3 `table` (captured with its quotes), 4 `foreign`, 5 `match`,
6 `ondelete`, 7 `onupdate`.  (No end anchor in the source.) -/
def reConstraint : RE :=
  .seq (.lit "  ".data)
  (.seq (.lit "CONSTRAINT".data)
  (.seq sp1
  (.seq (quotedIdent 1)
  (.seq sp1
  (.seq (.lit "FOREIGN KEY".data)
  (.seq sp1
  (.seq (.lit ['('])
  (.seq (.grp 2 (rep1Lazy (.cls fun c => c != ')')))
  (.seq (.lit [')'])
  (.seq (.lit " REFERENCES".data)
  (.seq sp1
  (.seq (.grp 3 (.seq (.lit [btick]) (.seq (rep1 (.cls notBtickB)) (.lit [btick]))))
  (.seq sp1
  (.seq (.lit ['('])
  (.seq (.grp 4 (rep1Lazy (.cls fun c => c != ')')))
  (.seq (.lit [')'])
  (.seq (.opt true (.seq sp1 (.grp 5 (.seq (.lit "MATCH ".data) (rep1 (.cls wordCharB))))))
  (.seq (.opt true (.seq sp1 (.seq (.lit "ON DELETE ".data) (.grp 6 onDelAlt))))
    (.opt true (.seq sp1 (.seq (.lit "ON UPDATE ".data) (.grp 7 onDelAlt))))))))))))))))))))))

/-- Transliteration of `_re_partition`: `'  (?:SUB)?PARTITION'`. -/
def rePartition : RE :=
  .seq (.lit "  ".data) (.seq (.opt true (.lit "SUB".data)) (.lit "PARTITION".data))

/-! ## parse_column -/

/-- The column spec produced by `parse_column` (base.py 2498-2517): the
`groupdict()` of whichever column pattern matched, plus the `full` flag.
The downstream consumer reads the flag-like entries only for truthiness,
so they are booleans here; `collate` is always `None` because the strict
pattern has no named `collate` group (see `reColumn`). -/
structure ColSpec where
  name : List Char
  coltype : List Char
  arg : Option (List Char)
  unsigned : Bool
  zerofill : Bool
  charset : Option (List Char)
  collate : Option (List Char)
  notnull : Bool
  default : Option (List Char)
  autoincr : Bool
  full : Bool
deriving DecidableEq, Repr

/-- The spec built from a strict-pattern match. -/
def specOfStrict (caps : Caps) : ColSpec :=
  { name := (getCap 1 caps).getD []
    coltype := (getCap 2 caps).getD []
    arg := getCap 3 caps
    unsigned := (getCap 4 caps).isSome
    zerofill := (getCap 5 caps).isSome
    charset := getCap 6 caps
    collate := none
    notnull := (getCap 8 caps).isSome
    default := getCap 9 caps
    autoincr := (getCap 10 caps).isSome
    full := true }

/-- The spec built from a loose-pattern match (the keys the loose pattern
does not capture read as `None`/falsy downstream). -/
def specOfLoose (caps : Caps) : ColSpec :=
  { name := (getCap 1 caps).getD []
    coltype := (getCap 2 caps).getD []
    arg := getCap 3 caps
    unsigned := false
    zerofill := false
    charset := none
    collate := none
    notnull := (getCap 4 caps).isSome
    default := none
    autoincr := false
    full := false }

/-- Embedding of `MySQLSchemaReflector.parse_column` (base.py 2498-2517):
try the strict pattern, fall back to the loose pattern, else `None`. -/
def parse_column (line : List Char) : Option ColSpec :=
  match reMatch reColumn line with
  | some caps => some (specOfStrict caps)
  | none =>
    match reMatch reColumnLoose line with
    | some caps => some (specOfLoose caps)
    | none => none

/-! ## The type catalog and column materialisation

Embeds `ischema_names` (base.py 1228-1263) and the spec-to-column step of
`MySQLSchemaReflector._add_column` (2138-2214), including the Python
constructor arities: a positional argument list a constructor's signature
cannot accept raises `TypeError`, exactly as calling the Python class
would.  Constructors of the external generic framework (`sqltypes.Date`,
`Boolean`, `NullType`, ...) derive from `AbstractType.__init__(self,
*args, **kwargs): pass` and accept anything; they are modelled as
argument-ignoring. -/

/-- The constructor classes reachable from `ischema_names`. -/
inductive TypeCtor : Type where
  | bigintC | binaryC | bitC | blobC | booleanC | charC | dateC | datetimeC
  | decimalC | doubleC | enumC | floatC | integerC | longblobC | longtextC
  | mediumblobC | mediumintC | mediumtextC | ncharC | nvarcharC | numericC
  | setC | smallintC | textC | timeC | timestampC | tinyblobC | tinyintC
  | tinytextC | varbinaryC | varcharC | yearC | nullTypeC
deriving DecidableEq, Repr

/-- Embedding of the `ischema_names` dictionary (exact, case-sensitive
lookup, as Python dictionary indexing is). -/
def ischema_names (t : List Char) : Option TypeCtor :=
  if t = "bigint".data then some .bigintC
  else if t = "binary".data then some .binaryC
  else if t = "bit".data then some .bitC
  else if t = "blob".data then some .blobC
  else if t = "boolean".data then some .booleanC
  else if t = "char".data then some .charC
  else if t = "date".data then some .dateC
  else if t = "datetime".data then some .datetimeC
  else if t = "decimal".data then some .decimalC
  else if t = "double".data then some .doubleC
  else if t = "enum".data then some .enumC
  else if t = "fixed".data then some .decimalC
  else if t = "float".data then some .floatC
  else if t = "int".data then some .integerC
  else if t = "integer".data then some .integerC
  else if t = "longblob".data then some .longblobC
  else if t = "longtext".data then some .longtextC
  else if t = "mediumblob".data then some .mediumblobC
  else if t = "mediumint".data then some .mediumintC
  else if t = "mediumtext".data then some .mediumtextC
  else if t = "nchar".data then some .ncharC
  else if t = "nvarchar".data then some .nvarcharC
  else if t = "numeric".data then some .numericC
  else if t = "set".data then some .setC
  else if t = "smallint".data then some .smallintC
  else if t = "text".data then some .textC
  else if t = "time".data then some .timeC
  else if t = "timestamp".data then some .timestampC
  else if t = "tinyblob".data then some .tinyblobC
  else if t = "tinyint".data then some .tinyintC
  else if t = "tinytext".data then some .tinytextC
  else if t = "varbinary".data then some .varbinaryC
  else if t = "varchar".data then some .varcharC
  else if t = "year".data then some .yearC
  else none

/-- The keyword options `_add_column` passes to a type constructor. -/
structure TypeKw where
  unsigned : Bool := false
  zerofill : Bool := false
  charset : Option (List Char) := none
  collate : Option (List Char) := none
  quoting : Option EnumQuoting := none
deriving DecidableEq, Repr

/-- The `_StringType` attributes a reflected constructor records from its
keyword options (`ascii`/`unicode`/`binary` are never passed by
reflection; `national` is forced by the N-typed constructors). -/
def saOfKw (kw : TypeKw) (national : Bool) : StrAttrs :=
  { charset := kw.charset, collation := kw.collate, ascii := false,
    unicode := false, binary := false, national := national }

/-- Which constructor classes are `issubclass(col_type, sqltypes.Integer)`
(`MSInteger` and its subclasses). -/
def ctorIsInteger : TypeCtor → Bool
  | .bigintC | .integerC | .mediumintC | .tinyintC | .smallintC => true
  | _ => false

/-- The `TypeError` Python raises when a constructor receives more
positional arguments than its signature accepts (or misses a required
one). -/
def ctorArityErr : PyErr := .typeError "constructor positional arguments do not match the signature"

/-- The `TypeError` raised when ENUM/SET literal processing indexes or
measures a non-string value. -/
def enumValueErr : PyErr := .typeError "enum or set value is not a string"

/-- All-string view of an argument list (ENUM/SET literals must be
strings; an `int` among them raises when sliced/measured). -/
def argsAsStrs : List TArg → Except PyErr (List (List Char))
  | [] => .ok []
  | .str s :: rest => (argsAsStrs rest).map (fun l => s :: l)
  | .num _ :: _ => .error enumValueErr

/-- Apply a type constructor to the positional arguments and keyword
options, with the Python signature arities:
integer classes and `MSYear`/`MSBit` take at most one display
width/length; `MSNumeric`/`MSDecimal` take `precision=10, scale=2,
asdecimal` (the third positional is `asdecimal`, not recorded here);
`MSDouble`/`MSReal` take `precision=None, scale=None, asdecimal` and
raise `ArgumentError` when exactly one of precision/scale ends up set;
`MSFloat` is the same without the check; `MSChar`/`MSNChar` require the
length, the other string/binary classes default it; the sized-TEXT and
sized-BLOB subclasses built from `**kwargs` only reject any positional
argument (`MSTinyBlob` etc. inherit `MSBlob.__init__`, whose stored
length their rendering never consults); ENUM strips its literals with
`quoting='quoted'` passed by `_add_column`; generic framework classes
accept anything. -/
def applyCtor (ctor : TypeCtor) (args : List TArg) (kw : TypeKw) : Except PyErr MyType :=
  match ctor with
  | .integerC =>
    match args with
    | [] => .ok (.integer none kw.unsigned kw.zerofill)
    | [a] => .ok (.integer (some a) kw.unsigned kw.zerofill)
    | _ => .error ctorArityErr
  | .bigintC =>
    match args with
    | [] => .ok (.bigint none kw.unsigned kw.zerofill)
    | [a] => .ok (.bigint (some a) kw.unsigned kw.zerofill)
    | _ => .error ctorArityErr
  | .mediumintC =>
    match args with
    | [] => .ok (.mediumint none kw.unsigned kw.zerofill)
    | [a] => .ok (.mediumint (some a) kw.unsigned kw.zerofill)
    | _ => .error ctorArityErr
  | .tinyintC =>
    match args with
    | [] => .ok (.tinyint none kw.unsigned kw.zerofill)
    | [a] => .ok (.tinyint (some a) kw.unsigned kw.zerofill)
    | _ => .error ctorArityErr
  | .smallintC =>
    match args with
    | [] => .ok (.smallint none kw.unsigned kw.zerofill)
    | [a] => .ok (.smallint (some a) kw.unsigned kw.zerofill)
    | _ => .error ctorArityErr
  | .numericC =>
    match args with
    | [] => .ok (.numeric (some (.num 10)) (some (.num 2)) kw.unsigned kw.zerofill)
    | [p] => .ok (.numeric (some p) (some (.num 2)) kw.unsigned kw.zerofill)
    | [p, s] => .ok (.numeric (some p) (some s) kw.unsigned kw.zerofill)
    | [p, s, _] => .ok (.numeric (some p) (some s) kw.unsigned kw.zerofill)
    | _ => .error ctorArityErr
  | .decimalC =>
    match args with
    | [] => .ok (.decimal (some (.num 10)) (some (.num 2)) kw.unsigned kw.zerofill)
    | [p] => .ok (.decimal (some p) (some (.num 2)) kw.unsigned kw.zerofill)
    | [p, s] => .ok (.decimal (some p) (some s) kw.unsigned kw.zerofill)
    | [p, s, _] => .ok (.decimal (some p) (some s) kw.unsigned kw.zerofill)
    | _ => .error ctorArityErr
  | .doubleC =>
    match args with
    | [] => .ok (.double none none kw.unsigned kw.zerofill)
    | [_] =>
      .error (.argumentError
        "You must specify both precision and scale or omit both altogether.")
    | [p, s] => .ok (.double (some p) (some s) kw.unsigned kw.zerofill)
    | [p, s, _] => .ok (.double (some p) (some s) kw.unsigned kw.zerofill)
    | _ => .error ctorArityErr
  | .floatC =>
    match args with
    | [] => .ok (.float none none kw.unsigned kw.zerofill)
    | [p] => .ok (.float (some p) none kw.unsigned kw.zerofill)
    | [p, s] => .ok (.float (some p) (some s) kw.unsigned kw.zerofill)
    | [p, s, _] => .ok (.float (some p) (some s) kw.unsigned kw.zerofill)
    | _ => .error ctorArityErr
  | .bitC =>
    match args with
    | [] => .ok (.bit none)
    | [a] => .ok (.bit (some a))
    | _ => .error ctorArityErr
  | .yearC =>
    match args with
    | [] => .ok (.year none)
    | [a] => .ok (.year (some a))
    | _ => .error ctorArityErr
  | .dateC => .ok .date
  | .datetimeC => .ok .datetime
  | .timeC => .ok .time
  | .timestampC => .ok .timestamp
  | .booleanC => .ok .boolean
  | .charC =>
    match args with
    | [a] => .ok (.char (some a) (saOfKw kw false))
    | _ => .error ctorArityErr
  | .varcharC =>
    match args with
    | [] => .ok (.varchar none (saOfKw kw false))
    | [a] => .ok (.varchar (some a) (saOfKw kw false))
    | _ => .error ctorArityErr
  | .ncharC =>
    match args with
    | [] => .ok (.nchar none (saOfKw kw true))
    | [a] => .ok (.nchar (some a) (saOfKw kw true))
    | _ => .error ctorArityErr
  | .nvarcharC =>
    match args with
    | [] => .ok (.nvarchar none (saOfKw kw true))
    | [a] => .ok (.nvarchar (some a) (saOfKw kw true))
    | _ => .error ctorArityErr
  | .textC =>
    match args with
    | [] => .ok (.text none (saOfKw kw false))
    | [a] => .ok (.text (some a) (saOfKw kw false))
    | _ => .error ctorArityErr
  | .tinytextC =>
    match args with
    | [] => .ok (.tinytext (saOfKw kw false))
    | _ => .error ctorArityErr
  | .mediumtextC =>
    match args with
    | [] => .ok (.mediumtext (saOfKw kw false))
    | _ => .error ctorArityErr
  | .longtextC =>
    match args with
    | [] => .ok (.longtext (saOfKw kw false))
    | _ => .error ctorArityErr
  | .blobC =>
    match args with
    | [] => .ok (.blob none)
    | [a] => .ok (.blob (some a))
    | _ => .error ctorArityErr
  | .tinyblobC =>
    match args with
    | [] | [_] => .ok .tinyblob
    | _ => .error ctorArityErr
  | .mediumblobC =>
    match args with
    | [] | [_] => .ok .mediumblob
    | _ => .error ctorArityErr
  | .longblobC =>
    match args with
    | [] | [_] => .ok .longblob
    | _ => .error ctorArityErr
  | .binaryC =>
    match args with
    | [] => .ok (.binary none)
    | [a] => .ok (.binary (some a))
    | _ => .error ctorArityErr
  | .varbinaryC =>
    match args with
    | [] => .ok (.varbinary none)
    | [a] => .ok (.varbinary (some a))
    | _ => .error ctorArityErr
  | .enumC =>
    (argsAsStrs args).map fun strs =>
      .enum (msEnumInit (kw.quoting.getD .auto) strs).2 (saOfKw kw false)
  | .setC =>
    (argsAsStrs args).map fun strs => .set strs (saOfKw kw false)
  | .nullTypeC => .ok .nullType

/-- The positional type arguments of `_add_column` (base.py 2166-2172):
none for a missing or empty argument text; the single-quoted literals via
`_re_csv_str.findall` when the text is quoted at both ends; else the
integers via `_re_csv_int.findall`. -/
def typeArgsOf (arg : Option (List Char)) : List TArg :=
  match arg with
  | none => []
  | some args =>
    if args.isEmpty then []
    else if args.head? = some apos ∧ args.getLast? = some apos then
      (findAll reCsvStr args).map (fun m => TArg.str m.1)
    else
      (findAll reCsvInt args).map (fun m => TArg.num (pyIntDigits m.1))

/-! ## Diagnostics

The warning/info messages of the reflector, with Python format slots
substituted (the `%r` slots are approximated by splicing the text
directly; the source typo `ommitted` is kept). -/

def unknownColWarn (line : List Char) : List Char :=
  "Unknown column definition ".data ++ line

def incompleteColWarn (line : List Char) : List Char :=
  "Incomplete reflection of column definition ".data ++ line

def unknownTypeWarn (t name : List Char) : List Char :=
  "Did not recognize type ".data ++ [apos] ++ t ++ [apos] ++
    " of column ".data ++ [apos] ++ name ++ [apos]

def omitColumnLog (tname : Option (List Char)) (name : List Char) : List Char :=
  "Omitting reflected column ".data ++ tname.getD "None".data ++ ['.'] ++ name

def unknownContentWarn (line : List Char) : List Char :=
  "Unknown schema content ".data ++ line

def omitKeyLog (flavor : List Char) (cols : List (List Char)) : List Char :=
  "Omitting ".data ++ flavor ++ " KEY for (".data ++
    List.intercalate ", ".data cols ++ "), key covers ommitted columns.".data

def unknownKeyLog (flavor : List Char) : List Char :=
  "Converting unknown KEY type ".data ++ flavor ++ " to a plain KEY".data

def omitFkLog (cols : List (List Char)) : List Char :=
  "Omitting FOREIGN KEY for (".data ++ List.intercalate ", ".data cols ++
    "), key covers ommitted columns.".data

/-! ## _add_column -/

/-- A reflected column default: either a bare SQL text clause (the
`sql.text(...)` branch for unquoted TIMESTAMP defaults) or a literal
default value. -/
inductive DefaultVal : Type where
  | textClause (s : List Char)
  | literal (s : List Char)
deriving DecidableEq, Repr

/-- A materialised column (`schema.Column`): name, type instance,
nullability (`True` unless `NOT NULL`), autoincrement flag and default. -/
structure Column where
  name : List Char
  ctype : MyType
  nullable : Bool
  autoincrement : Bool
  default : Option DefaultVal
deriving DecidableEq, Repr

/-- Embedding of `MySQLSchemaReflector._add_column` (base.py 2138-2214)
given the table name, the raw line, and the column allow-list (`only`,
with the empty list playing Python's falsy `None`/empty set).  Returns
the column to append (`none` when the line is skipped) and the emitted
diagnostics.  The `charset` re-encoding of the default is the identity
here (ASCII subjects). -/
def add_column (tname : Option (List Char)) (line : List Char)
    (only : List (List Char)) : Except PyErr (Option Column × List (List Char)) :=
  match parse_column line with
  | none => .ok (none, [unknownColWarn line])
  | some spec =>
    let warns0 := if spec.full then [] else [incompleteColWarn line]
    if only ≠ [] ∧ ¬ only.contains spec.name then
      .ok (none, warns0 ++ [omitColumnLog tname spec.name])
    else
      let td := if spec.coltype = "tinyint".data ∧ spec.arg = some ['1']
        then ("boolean".data, (none : Option (List Char)))
        else (spec.coltype, spec.arg)
      let type1 := td.1
      let args1 := td.2
      let cw := match ischema_names type1 with
        | some c => (c, ([] : List (List Char)))
        | none => (.nullTypeC, [unknownTypeWarn type1 spec.name])
      let targs := typeArgsOf args1
      let kw : TypeKw :=
        { unsigned := spec.unsigned, zerofill := spec.zerofill,
          charset := spec.charset, collate := spec.collate,
          quoting := if type1 = "enum".data then some .quoted else none }
      match applyCtor cw.1 targs kw with
      | .error e => .error e
      | .ok ty =>
        let nullable := !spec.notnull
        let autoinc :=
          if spec.autoincr then true
          else if ctorIsInteger cw.1 then false
          else true
        let defaultVal : Option DefaultVal :=
          match spec.default with
          | none => none
          | some d =>
            if d = "NULL".data then none
            else if type1 = "timestamp".data then
              (if ¬ (d.head? = some apos ∧ d.getLast? = some apos)
               then some (.textClause d) else some (.literal d))
            else some (.literal (pySlice1m1 d))
        .ok (some ⟨spec.name, ty, nullable, autoinc, defaultVal⟩, warns0 ++ cw.2)

/-! ## Key and constraint specs, the reflect loop -/

/-- A parsed KEY line (`_re_key` plus the key-expression sub-parse):
flavor keyword, optional name, and (column name, raw prefix-length
capture) pairs. -/
structure KeySpec where
  flavor : Option (List Char)
  name : Option (List Char)
  columns : List (List Char × List Char)
deriving DecidableEq, Repr

/-- A parsed CONSTRAINT ... FOREIGN KEY line. -/
structure ConsSpec where
  name : Option (List Char)
  tableParts : List (List Char)
  localCols : List (List Char)
  foreignCols : List (List Char)
  ondelete : Option (List Char)
  onupdate : Option (List Char)
deriving DecidableEq, Repr

/-- Embedding of `_parse_keyexprs` (base.py 2626-2629):
`_re_keyexprs.findall` over a column-list text, each match giving the
(still-escaped) column name and the optional prefix length (the empty
string when absent, as Python returns for a non-participating group). -/
def parseKeyexprs (s : List Char) : List (List Char × List Char) :=
  (findAll reKeyexprs s).map fun m => ((getCap 1 m.2).getD [], (getCap 2 m.2).getD [])

/-- Split a character list on dots. -/
def splitOnDot : List Char → List (List Char)
  | [] => [[]]
  | '.' :: rest => [] :: splitOnDot rest
  | c :: rest =>
    match splitOnDot rest with
    | [] => [[c]]
    | l :: ls => (c :: l) :: ls

/-- Modelled from the spec: the generic identifier preparer's
`unformat_identifiers` (the generic compiler module is an external
collaborator, outside this core source), which the spec describes as
splitting a schema-qualified identifier chain and unquoting each part via
the identifier-unescaping routine: split on dots, strip one layer of
identifier quotes, un-double escaped quote characters.  (Dots inside
quoted identifiers are not handled; no claim exercises them.) -/
def unformat_identifiers (s : List Char) : List (List Char) :=
  (splitOnDot s).map fun part =>
    if part.head? = some btick ∧ part.getLast? = some btick then
      pyReplace [btick, btick] [btick] (pySlice1m1 part)
    else part

/-- Classification result of `parse_constraints` (base.py 2519-2553). -/
inductive LineKind : Type where
  | keyLine (k : KeySpec)
  | consLine (c : ConsSpec)
  | partitionLine
  | unknown
deriving DecidableEq, Repr

/-- Embedding of `MySQLSchemaReflector.parse_constraints`: try the KEY
pattern, then the CONSTRAINT pattern, then the PARTITION pattern. -/
def parse_constraints (line : List Char) : LineKind :=
  match reMatch reKey line with
  | some caps =>
    .keyLine
      { flavor := getCap 1 caps, name := getCap 2 caps,
        columns := parseKeyexprs ((getCap 4 caps).getD []) }
  | none =>
    match reMatch reConstraint line with
    | some caps =>
      .consLine
        { name := getCap 1 caps,
          tableParts := unformat_identifiers ((getCap 3 caps).getD []),
          localCols := (parseKeyexprs ((getCap 2 caps).getD [])).map (fun p => p.1),
          foreignCols := (parseKeyexprs ((getCap 4 caps).getD [])).map (fun p => p.1),
          ondelete := getCap 6 caps, onupdate := getCap 7 caps }
    | none =>
      match reMatch rePartition line with
      | some _ => .partitionLine
      | none => .unknown

/-! ## The table under construction and the per-line reflect loop -/

/-- A reflected index (`schema.Index`). -/
structure IndexRec where
  name : Option (List Char)
  unique : Bool
  columns : List (List Char)
deriving DecidableEq, Repr

/-- A reflected foreign-key constraint (`schema.ForeignKeyConstraint`).
The referenced table is recorded as the resolved (schema, name) pair; its
actual loading (recursive reflection through the caller's table registry)
is the external schema framework's job. -/
structure FkRec where
  name : Option (List Char)
  localCols : List (List Char)
  refSchema : Option (List Char)
  refTable : List Char
  refCols : List (List Char)
  ondelete : Option (List Char)
  onupdate : Option (List Char)
deriving DecidableEq, Repr

/-- The `schema.Table` being populated. -/
structure TableState where
  name : Option (List Char)
  schema : Option (List Char)
  columns : List Column
  pk : Option (List (List Char))
  indexes : List IndexRec
  fks : List FkRec
  options : List (List Char × List Char)
deriving DecidableEq, Repr

/-- Embedding of `parse_name` (base.py 2485-2496): match `_pr_name` and
unescape the captured name. -/
def parse_name (line : List Char) : Option (List Char) :=
  (reMatch reName line).map fun c => pyReplace [btick, btick] [btick] ((getCap 1 c).getD [])

/-- Embedding of `_set_name` (base.py 2124-2136): only fill in a name the
caller has not set. -/
def set_name (st : TableState) (line : List Char) : TableState :=
  if st.name.isNone then { st with name := parse_name line } else st

/-- Embedding of `_set_keys` (base.py 2216-2262): drop any key whose
column set is not wholly contained in a non-empty allow-list (with an
info diagnostic), then build a primary-key constraint or an index;
looking up a column the table does not have raises `KeyError` as
Python's `table.c[name]` would. -/
def set_keys (st : TableState) (keys : List KeySpec) (only : List (List Char)) :
    Except PyErr (TableState × List (List Char)) :=
  match keys with
  | [] => .ok (st, [])
  | spec :: rest =>
    let colNames := spec.columns.map (fun p => p.1)
    if only ≠ [] ∧ ¬ colNames.all (fun n => only.contains n) then
      let flavor := spec.flavor.getD "index".data
      (set_keys st rest only).map (fun p => (p.1, omitKeyLog flavor colNames :: p.2))
    else if colNames.any (fun n => !st.columns.any (fun c => c.name = n)) then
      .error (.keyError "no such column in table")
    else
      let stw : TableState × List (List Char) :=
        if spec.flavor = some "PRIMARY".data then
          ({ st with pk := some colNames }, [])
        else if spec.flavor = some "UNIQUE".data then
          ({ st with indexes := st.indexes ++ [⟨spec.name, true, colNames⟩] }, [])
        else if spec.flavor = none ∨ spec.flavor = some "FULLTEXT".data ∨
            spec.flavor = some "SPATIAL".data then
          ({ st with indexes := st.indexes ++ [⟨spec.name, false, colNames⟩] }, [])
        else
          ({ st with indexes := st.indexes ++ [⟨spec.name, false, colNames⟩] },
           [unknownKeyLog (spec.flavor.getD [])])
      (set_keys stw.1 rest only).map (fun p => (p.1, stw.2 ++ p.2))

/-- Embedding of `_set_constraints` (base.py 2264-2309): resolve the
referenced table's schema, drop any foreign key whose local column set is
not wholly contained in a non-empty allow-list (with an info diagnostic),
and record the constraint.  The caller-side default-schema probe is the
`defaultSchema` parameter. -/
def set_constraints (st : TableState) (cons : List ConsSpec)
    (only : List (List Char)) (defaultSchema : Option (List Char)) :
    Except PyErr (TableState × List (List Char)) :=
  match cons with
  | [] => .ok (st, [])
  | spec :: rest =>
    let refName := (spec.tableParts.getLast?).getD []
    let refSchema0 : Option (List Char) :=
      if spec.tableParts.length > 1 ∧
          (spec.tableParts.get? (spec.tableParts.length - 2)).getD [] ≠ [] then
        spec.tableParts.get? (spec.tableParts.length - 2)
      else st.schema
    let refSchema : Option (List Char) :=
      if refSchema0.getD [] = [] then
        (if st.schema = defaultSchema then st.schema else refSchema0)
      else refSchema0
    if only ≠ [] ∧ ¬ spec.localCols.all (fun n => only.contains n) then
      (set_constraints st rest only defaultSchema).map
        (fun p => (p.1, omitFkLog spec.localCols :: p.2))
    else
      let fk : FkRec :=
        { name := spec.name, localCols := spec.localCols,
          refSchema := refSchema, refTable := refName,
          refCols := spec.foreignCols,
          ondelete := spec.ondelete, onupdate := spec.onupdate }
      set_constraints { st with fks := st.fks ++ [fk] } rest only defaultSchema

/-! ## Table options -/

/-- The shared directive prefix of every option pattern:
`(?P<directive>DIRECTIVE\s*(?:=\s*)?)` as group 1. -/
def optDirective (d : List Char) : RE :=
  .grp 1 (.seq (.lit d)
    (.seq (.star true (.cls spaceB))
      (.opt true (.seq (.lit ['=']) (.star true (.cls spaceB))))))

/-- Transliteration of `_add_option_word` (base.py 2474-2477):
directive then `(?P<val>\w+)` as group 2. -/
def optWordRE (d : List Char) : RE :=
  .seq (optDirective d) (.grp 2 (rep1 (.cls wordCharB)))

/-- Transliteration of `_add_option_string` (base.py 2467-2472):
directive then `(?:\x27.(?P<val>.*?)\x27(?!\x27)\x27)` as group 2 (the
pattern is transliterated exactly as written in the source). -/
def optStringRE (d : List Char) : RE :=
  .seq (optDirective d)
    (.seq (.lit [apos])
      (.seq (.cls dotB)
        (.seq (.grp 2 (.star false (.cls dotB)))
          (.seq (.lit [apos]) (.seq (.look false (.lit [apos])) (.lit [apos]))))))

/-- Transliteration of `_add_option_regex` (base.py 2479-2482). -/
def optRegexRE (d : List Char) (vre : RE) : RE :=
  .seq (optDirective d) (.grp 2 vre)

/-- The value pattern of the `UNION` option: `\([^\)]+\)`. -/
def unionValRE : RE :=
  .seq (.lit ['(']) (.seq (rep1 (.cls fun c => c != ')')) (.lit [')']))

/-- The value pattern of the `TABLESPACE` option: `.*? STORAGE DISK`. -/
def tablespaceValRE : RE :=
  .seq (.star false (.cls dotB)) (.lit " STORAGE DISK".data)

/-- The value pattern of the `RAID_TYPE` option:
`\w+\s+RAID_CHUNKS\s*\=\s*\w+RAID_CHUNKSIZE\s*=\s*\w+`. -/
def raidValRE : RE :=
  .seq (rep1 (.cls wordCharB))
  (.seq (rep1 (.cls spaceB))
  (.seq (.lit "RAID_CHUNKS".data)
  (.seq (.star true (.cls spaceB))
  (.seq (.lit ['='])
  (.seq (.star true (.cls spaceB))
  (.seq (rep1 (.cls wordCharB))
  (.seq (.lit "RAID_CHUNKSIZE".data)
  (.seq (.star true (.cls spaceB))
  (.seq (.lit ['='])
  (.seq (.star true (.cls spaceB)) (rep1 (.cls wordCharB))))))))))))

/-- The `_pr_options` battery in registration order (base.py 2448-2464);
the boolean marks the string options whose value is cleaned by
un-doubling quotes. -/
def pr_options : List (RE × Bool) :=
  [(optWordRE "ENGINE".data, false),
   (optWordRE "TYPE".data, false),
   (optWordRE "AUTO_INCREMENT".data, false),
   (optWordRE "AVG_ROW_LENGTH".data, false),
   (optWordRE "CHARACTER SET".data, false),
   (optWordRE "DEFAULT CHARSET".data, false),
   (optWordRE "CHECKSUM".data, false),
   (optWordRE "COLLATE".data, false),
   (optWordRE "DELAY_KEY_WRITE".data, false),
   (optWordRE "INSERT_METHOD".data, false),
   (optWordRE "MAX_ROWS".data, false),
   (optWordRE "MIN_ROWS".data, false),
   (optWordRE "PACK_KEYS".data, false),
   (optWordRE "ROW_FORMAT".data, false),
   (optWordRE "KEY_BLOCK_SIZE".data, false),
   (optStringRE "COMMENT".data, true),
   (optStringRE "DATA_DIRECTORY".data, true),
   (optStringRE "INDEX_DIRECTORY".data, true),
   (optStringRE "PASSWORD".data, true),
   (optStringRE "CONNECTION".data, true),
   (optRegexRE "UNION".data unionValRE, false),
   (optRegexRE "TABLESPACE".data tablespaceValRE, false),
   (optRegexRE "RAID_TYPE".data raidValRE, false)]

/-- Does a suffix match `\s*=\s*$`? -/
def matchesEqEnd (s : List Char) : Bool :=
  match s.dropWhile spaceB with
  | '=' :: r => r.all spaceB
  | _ => false

/-- Python `re.sub(r'\s*=\s*$', '', s)`: delete the leftmost suffix of
whitespace, `=`, whitespace reaching the end. -/
def subEqEnd : List Char → List Char
  | [] => []
  | c :: rest => if matchesEqEnd (c :: rest) then [] else c :: subEqEnd rest

/-- The option key: the captured directive with any trailing `=` clause
removed, lower-cased (`directive = r_eq_trim.sub('', directive).lower()`). -/
def directiveKey (d : List Char) : List Char := (subEqEnd d).map Char.toLower

/-- Insert or replace a key in the options dictionary. -/
def upsertOpt (opts : List (List Char × List Char)) (k v : List Char) :
    List (List Char × List Char) :=
  if opts.any (fun p => p.1 = k) then
    opts.map (fun p => if p.1 = k then (k, v) else p)
  else opts ++ [(k, v)]

/-- Embedding of `parse_table_options` (base.py 2555-2579): search every
option pattern independently against the whole line; collect the matched
directive/value pairs. -/
def parse_table_options (line : List Char) : List (List Char × List Char) :=
  if line = [] ∨ line = [')'] then []
  else
    pr_options.foldl
      (fun opts rc =>
        match reSearch rc.1 line with
        | none => opts
        | some caps =>
          let dir := directiveKey ((getCap 1 caps).getD [])
          let v0 := (getCap 2 caps).getD []
          let v := if rc.2 then pyReplace [apos, apos] [apos] v0 else v0
          upsertOpt opts dir v)
      []

/-- Embedding of `_set_options` (base.py 2311-2326): parse the options
line, drop the non-portable options, store the rest under a `mysql_`
prefix. -/
def set_options (st : TableState) (line : List Char) : TableState :=
  let options := (parse_table_options line).filter fun p =>
    ¬ (p.1 = "auto_increment".data ∨ p.1 = "data_directory".data ∨
        p.1 = "index_directory".data)
  { st with options := st.options ++ options.map (fun p => ("mysql_".data ++ p.1, p.2)) }

/-! ## reflect -/

/-- The loop state of `reflect`: the table plus the key and constraint
specs accumulated for the second pass. -/
structure RState where
  table : TableState
  keys : List KeySpec
  cons : List ConsSpec
deriving DecidableEq, Repr

/-- Embedding of the line classification of `reflect` (base.py
2096-2119), in source priority order; returns the updated state and the
emitted diagnostics. -/
def processLine (st : RState) (only : List (List Char)) (line : List Char) :
    Except PyErr (RState × List (List Char)) :=
  if [' ', ' ', btick].isPrefixOf line then
    match add_column st.table.name line only with
    | .error e => .error e
    | .ok (c?, ws) =>
      .ok ({ st with table := { st.table with columns := st.table.columns ++ c?.toList } }, ws)
  else if [')', ' '].isPrefixOf line then
    .ok ({ st with table := set_options st.table line }, [])
  else if line = [')'] then .ok (st, [])
  else if "CREATE ".data.isPrefixOf line then
    .ok ({ st with table := set_name st.table line }, [])
  else if line = [] then .ok (st, [])
  else
    match parse_constraints line with
    | .unknown => .ok (st, [unknownContentWarn line])
    | .keyLine k => .ok ({ st with keys := st.keys ++ [k] }, [])
    | .consLine c => .ok ({ st with cons := st.cons ++ [c] }, [])
    | .partitionLine => .ok (st, [])

/-- The line loop of `reflect`, threading state and diagnostics. -/
def runLines (st : RState) (only : List (List Char)) :
    List (List Char) → Except PyErr (RState × List (List Char))
  | [] => .ok (st, [])
  | l :: rest =>
    match processLine st only l with
    | .error e => .error e
    | .ok (st', ws) => (runLines st' only rest).map (fun p => (p.1, ws ++ p.2))

/-- Python `re.split(r'\r?\n', s)`: a newline, optionally preceded by a
carriage return, separates lines. -/
def pySplitLines : List Char → List (List Char)
  | [] => [[]]
  | c :: rest =>
    if c = '\r' ∧ rest.head? = some '\n' then
      match rest with
      | _ :: rest' => [] :: pySplitLines rest'
      | [] => [[]]
    else if c = '\n' then [] :: pySplitLines rest
    else
      match pySplitLines rest with
      | [] => [[c]]
      | l :: ls => (c :: l) :: ls

/-- Embedding of `MySQLSchemaReflector.reflect` (base.py 2068-2122):
split the SHOW CREATE TABLE text into lines, classify each line, then
apply keys and constraints in the second pass.  `only` is the optional
column allow-list (empty = not supplied); `defaultSchema` stands for the
connection's default-schema probe used by constraint resolution. -/
def reflect (tbl : TableState) (showCreate : List Char) (only : List (List Char))
    (defaultSchema : Option (List Char)) :
    Except PyErr (TableState × List (List Char)) :=
  match runLines ⟨tbl, [], []⟩ only (pySplitLines showCreate) with
  | .error e => .error e
  | .ok (st, ws) =>
    match set_keys st.table st.keys only with
    | .error e => .error e
    | .ok (t1, ws1) =>
      match set_constraints t1 st.cons only defaultSchema with
      | .error e => .error e
      | .ok (t2, ws2) => .ok (t2, ws ++ ws1 ++ ws2)

/-- Joining lines with newlines (the inverse of the line split for
newline-free lines). -/
def joinLinesNL : List (List Char) → List Char
  | [] => []
  | [l] => l
  | l :: rest => l ++ '\n' :: joinLinesNL rest

/-- A fresh `Table` handed to `reflect`. -/
def emptyTable : TableState := ⟨none, none, [], none, [], [], []⟩

/-- SHOW CREATE TABLE text for a table with a two-column primary key. -/
def twoColPkDDL : List Char :=
  "CREATE TABLE `t` (\n  `a` int(11),\n  `b` int(11),\n  PRIMARY KEY (`a`,`b`)\n) ".data

/-- The badness condition of claim C7 on a line: either it looks like a
column line (two spaces and the initial quote) but matches neither column
pattern, or it reaches the sub-parsers (none of the other classifications
apply) and matches none of KEY/CONSTRAINT/PARTITION. -/
def unparseableLine (line : List Char) : Prop :=
  ([' ', ' ', btick].isPrefixOf line ∧ parse_column line = none) ∨
  (¬ [' ', ' ', btick].isPrefixOf line ∧ ¬ [')', ' '].isPrefixOf line ∧
    line ≠ [')'] ∧ ¬ "CREATE ".data.isPrefixOf line ∧ line ≠ [] ∧
    parse_constraints line = .unknown)

instance (line : List Char) : Decidable (unparseableLine line) := by
  unfold unparseableLine; infer_instance

/-- The diagnostic the reflect loop emits for an unparseable line. -/
def badLineWarn (line : List Char) : List Char :=
  if [' ', ' ', btick].isPrefixOf line then unknownColWarn line
  else unknownContentWarn line

/-! ## Claim C1 toolkit: evaluating the column patterns symbolically

The round-trip claims quantify over arbitrary numeric arguments, so the
patterns must be evaluated on subjects with a symbolic digit run inside.
The lemmas below characterise the engine on such subjects. -/

/-- The results of a greedy character-class star on `xs ++ rest` where
every character of `xs` is in the class and `rest` does not start with
one: longest consumption first, ending with the empty match. -/
def runsList (xs rest : List Char) (caps : Caps) : List (List Char × Caps) :=
  match xs with
  | [] => [(rest, caps)]
  | d :: ds => runsList ds rest caps ++ [((d :: ds) ++ rest, caps)]

/-! The engine never inspects the accumulated captures, so running with
initial captures `c0` appends `c0` to every result of running with none;
this reduces a match on a concrete subject with symbolic initial captures
to a closed computation. -/

/-- Concatenation of capture lists (`Caps` is a defined type, so the
list instance is spelled out). -/
def capsApp (a b : Caps) : Caps := List.append (a : List (Nat × List Char)) b

/-- Append `c0` to one result's captures. -/
def capShift (c0 : Caps) (q : List Char × Caps) : List Char × Caps :=
  (q.1, capsApp q.2 c0)

/-- The decimal digit characters; every character `natDigits` emits is one
of these, which supplies all the class/literal facts the pattern
evaluation needs about a symbolic digit. -/
def tenChars : List Char := "0123456789".data

/-- A `SHOW CREATE TABLE` column line for a column named `c` of the given
type, as the reflector receives it: two-space indent, backtick-quoted
name, one space, the compiled type clause. -/
def mkColumnLine (t : MyType) : List Char :=
  [' ', ' ', btick, 'c', btick, ' '] ++ typeCompile t

/-- What the round-trip claim compares: the reflected type tag (the
reflector looks it up case-sensitively against the lower-case catalog, so
the tag is taken lower-cased), the positional type arguments exactly as
`_add_column` derives them from the captured argument text, the two
numeric flags, and whether the strict pattern matched. -/
structure SpecSummary where
  tag : List Char
  args : List TArg
  unsigned : Bool
  zerofill : Bool
  full : Bool
deriving DecidableEq, Repr

def specSummary (s : ColSpec) : SpecSummary :=
  ⟨s.coltype.map Char.toLower, typeArgsOf s.arg, s.unsigned, s.zerofill, s.full⟩

/-!
Theorems.  Each claim of the specification is settled by one theorem
named after it; the supporting lemmas precede the claim theorems that
use them.
-/

/-- C2 counterexample: the claim says the FLOAT constructor raises an
argument error when precision is supplied and scale is omitted; in the code
`MSFloat.__init__` has no such check and the construction succeeds. -/
theorem claim2_counterexample :
    msFloatInit (some 10) none false false = .ok ⟨some 10, none, false, false⟩ ∧
    raisesArg (msFloatInit (some 10) none false false) = false := by
  exact ⟨rfl, rfl⟩

/-- C2 (amended): DOUBLE and REAL raise an argument error exactly when one
of precision and scale is supplied and the other omitted; FLOAT never
performs this check and succeeds in all four combinations. -/
theorem claim2_theorem (p s : Option Int) (u z : Bool) :
    raisesArg (msDoubleInit p s u z) = (p.isNone != s.isNone) ∧
    raisesArg (msRealInit p s u z) = (p.isNone != s.isNone) ∧
    raisesArg (msFloatInit p s u z) = false := by
  cases p <;> cases s <;> simp [msDoubleInit, msRealInit, msFloatInit, raisesArg]

/-- C4: with both limit and offset absent no LIMIT clause is emitted; with
only a limit, `LIMIT limit`; with both, `LIMIT offset, limit`; with only an
offset, `LIMIT offset, 18446744073709551615` (2^64 - 1). -/
theorem claim4_theorem (l o : Int) :
    limit_clause none none = "" ∧
    limit_clause (some l) none = " \n LIMIT " ++ toString l ∧
    limit_clause (some l) (some o) = " \n LIMIT " ++ toString o ++ ", " ++ toString l ∧
    limit_clause none (some o) =
      " \n LIMIT " ++ toString o ++ ", " ++ toString (18446744073709551615 : Int) ∧
    toString (18446744073709551615 : Int) = "18446744073709551615" ∧
    (18446744073709551615 : Int) = 2 ^ 64 - 1 := by
  refine ⟨rfl, rfl, rfl, rfl, by decide, by decide⟩

theorem pyReplaceF_percent (text : List Char) :
    ∀ fuel, text.length ≤ fuel →
      pyReplaceF ['%'] ['%', '%'] fuel text =
        text.flatMap (fun c => if c = '%' then ['%', '%'] else [c]) := by
  induction text with
  | nil => intro fuel _; cases fuel <;> rfl
  | cons c rest ih =>
    intro fuel hf
    cases fuel with
    | zero => simp at hf
    | succ n =>
      have hn : rest.length ≤ n := by simpa using hf
      by_cases hc : c = '%'
      · subst hc
        simp [pyReplaceF, List.isPrefixOf, ih n hn]
      · simp [pyReplaceF, List.isPrefixOf, hc, Ne.symm hc, ih n hn]

theorem pyContains_iff_infix (pat : List Char) (s : List Char) :
    pyContains pat s = true ↔ pat <:+: s := by
  induction s with
  | nil =>
    simp only [pyContains, List.isEmpty_iff]
    constructor
    · intro h; simp [h]
    · intro h; exact List.eq_nil_of_infix_nil h
  | cons c rest ih =>
    simp only [pyContains, Bool.or_eq_true, List.isPrefixOf_iff_prefix, ih,
      List.infix_cons_iff]

/-- C10: the processed text is the input with every percent doubled, and the
double-escape diagnostic is emitted exactly when the input already contains
the substring of two consecutive percents (processing proceeds either way). -/
theorem claim10_theorem (text : List Char) :
    (post_process_text text).2 =
      text.flatMap (fun c => if c = '%' then ['%', '%'] else [c]) ∧
    ((post_process_text text).1 ≠ [] ↔ ['%', '%'] <:+: text) ∧
    (post_process_text text).1 =
      (if pyContains ['%', '%'] text then [mysqldb_escape_warning] else []) := by
  refine ⟨pyReplaceF_percent text text.length le_rfl, ?_, rfl⟩
  rw [← pyContains_iff_infix]
  by_cases h : pyContains ['%', '%'] text <;> simp [post_process_text, h]

theorem detectLoop_some (q : Char) (l : List (List Char)) :
    detectLoop (some q) l =
      (if l.all (fun x => !x.isEmpty && x.head? == some q && x.getLast? == some q)
       then .quoted else .unquoted) := by
  induction l with
  | nil => rfl
  | cons e rest ih =>
    match e with
    | [] => simp [detectLoop]
    | c :: cs =>
      by_cases hc : c = q
      · subst hc
        by_cases hl : (c :: cs).getLast (List.cons_ne_nil c cs) = c
        · rw [detectLoop]
          simp only [Option.getD_some, ne_eq, not_true_eq_false, hl, or_self, if_false, ih]
          have hlast : (c :: cs).getLast? = some c := by
            rw [List.getLast?_eq_getLast _ (List.cons_ne_nil c cs), hl]
          simp [hlast]
        · rw [detectLoop]
          simp only [Option.getD_some, ne_eq, not_true_eq_false, false_or, hl,
            not_false_eq_true, if_true]
          have hlast : (c :: cs).getLast? = some ((c :: cs).getLast (List.cons_ne_nil c cs)) :=
            List.getLast?_eq_getLast _ _
          have : ((c :: cs).getLast? == some c) = false := by
            rw [hlast]; simpa using hl
          simp [this]
      · rw [detectLoop]
        simp only [Option.getD_some, ne_eq, hc, not_false_eq_true, true_or, if_true]
        have : ((c :: cs).head? == some q) = false := by simpa using hc
        simp [this, hc]

theorem detectLoop_auto (enums : List (List Char)) :
    detectLoop none enums = (if allSameEdge enums then .quoted else .unquoted) := by
  match enums with
  | [] => rfl
  | [] :: rest => simp [detectLoop, allSameEdge]
  | (c :: cs) :: rest =>
    by_cases hl : (c :: cs).getLast (List.cons_ne_nil c cs) = c
    · rw [detectLoop]
      simp only [Option.getD_none, ne_eq, not_true_eq_false, hl, or_self, if_false,
        detectLoop_some]
      have hlast : (c :: cs).getLast? = some c := by
        rw [List.getLast?_eq_getLast _ (List.cons_ne_nil c cs), hl]
      simp [allSameEdge, hlast]
    · rw [detectLoop]
      simp only [Option.getD_none, ne_eq, not_true_eq_false, false_or, hl,
        not_false_eq_true, if_true]
      have hlast : (c :: cs).getLast? = some ((c :: cs).getLast (List.cons_ne_nil c cs)) :=
        List.getLast?_eq_getLast _ _
      have hfalse : ((c :: cs).getLast? == some c) = false := by
        rw [hlast]; simpa using hl
      simp [allSameEdge, hfalse]

/-- C5 counterexample: the literal list containing only `aba` has no quoted
literal at all, so the claim says unquoted mode is selected; the code
selects quoted mode (it tests for a shared first/last character, not for a
quote character). -/
theorem claim5_counterexample :
    msEnumInit .auto [['a', 'b', 'a']] = (.quoted, [['a', 'b', 'a']]) ∧
    EnumQuoting.quoted ≠ EnumQuoting.unquoted := by
  exact ⟨rfl, by decide⟩

/-- C5 (amended): with quoting left to auto-detect, quoted mode is selected
exactly when every literal is non-empty and all literals share one
first/last character (any character, not only a quote character; the empty
list also selects quoted mode); in quoted mode one layer of quoting is
stripped, with doubled interior quote characters un-escaped, only from
literals that begin with a single or double quote, other literals being
kept verbatim; otherwise unquoted mode is selected and all literals are
kept verbatim.  In particular a uniformly single-quoted non-empty list
selects quoted mode and every literal is stripped and un-escaped. -/
theorem claim5_theorem (enums : List (List Char)) :
    (msEnumInit .auto enums).1 = (if allSameEdge enums then .quoted else .unquoted) ∧
    (msEnumInit .auto enums).2 =
      (if allSameEdge enums then enums.map stripQuoted else enums) ∧
    (∀ a c cs, a = c :: cs → (c = '"' ∨ c = apos) →
      stripQuoted a = pyReplace [c, c] [c] (pySlice1m1 a)) ∧
    (∀ a c cs, a = c :: cs → ¬(c = '"' ∨ c = apos) → stripQuoted a = a) ∧
    ((∀ e ∈ enums, ∃ mid, e = apos :: mid ++ [apos]) →
      (msEnumInit .auto enums).1 = .quoted ∧
      (msEnumInit .auto enums).2 =
        enums.map (fun e => pyReplace [apos, apos] [apos] (pySlice1m1 e))) := by
  have hmode : (msEnumInit .auto enums).1 =
      (if allSameEdge enums then .quoted else .unquoted) := by
    rw [msEnumInit]
    simp only [if_pos rfl, detectLoop_auto]
    by_cases h : allSameEdge enums <;> simp [h]
  have hout : (msEnumInit .auto enums).2 =
      (if allSameEdge enums then enums.map stripQuoted else enums) := by
    rw [msEnumInit]
    simp only [if_pos rfl, detectLoop_auto]
    by_cases h : allSameEdge enums <;> simp [h]
  refine ⟨hmode, hout, ?_, ?_, ?_⟩
  · intro a c cs ha hq
    subst ha; simp [stripQuoted, hq]
  · intro a c cs ha hq
    subst ha; simp [stripQuoted, hq]
  · intro hq
    have hedge : allSameEdge enums = true := by
      match henums : enums with
      | [] => rfl
      | e :: rest =>
        obtain ⟨mid, hmid⟩ := hq e (by simp)
        subst hmid
        have hunfold : allSameEdge ((apos :: mid ++ [apos]) :: rest) =
            ((apos :: mid ++ [apos]) :: rest).all
              (fun x => !x.isEmpty && x.head? == some apos && x.getLast? == some apos) := rfl
        rw [hunfold, List.all_eq_true]
        intro x hx
        obtain ⟨mid', hmid'⟩ := hq x hx
        subst hmid'
        have hlast : (apos :: mid' ++ [apos]).getLast? = some apos :=
          List.getLast?_concat _
        rw [List.cons_append] at hlast
        simp [hlast]
    have hstrip : ∀ e ∈ enums,
        stripQuoted e = pyReplace [apos, apos] [apos] (pySlice1m1 e) := by
      intro e he
      obtain ⟨mid, hmid⟩ := hq e he
      subst hmid
      simp [stripQuoted]
    constructor
    · rw [hmode, if_pos hedge]
    · rw [hout, if_pos hedge, List.map_congr_left hstrip]

/-- C9: the type-clause visitor yields no text exactly for the families
with no MySQL CAST spelling; for them the compiler emits the inner
expression unchanged with no CAST wrapper, and whenever the visitor yields
type text the compiler emits the wrapped form. -/
theorem claim9_theorem (t : MyType) (inner : List Char) :
    ((visit_typeclause t).isNone = noCastFamily t) ∧
    (noCastFamily t = true → visit_cast inner t = inner) ∧
    (∀ ty, visit_typeclause t = some ty →
      visit_cast inner t = "CAST(".data ++ inner ++ (" AS ".data ++ ty ++ [')'])) := by
  refine ⟨?_, ?_, ?_⟩
  · cases t <;> rfl
  · intro h
    cases t <;> first
      | rfl
      | simp [noCastFamily] at h
  · intro ty hty
    rw [visit_cast, hty]

/-- C9 witness: a FLOAT target degrades to the bare inner expression; a
DATETIME target is wrapped in CAST. -/
theorem claim9_witness :
    visit_cast "x".data (.float none none false false) = "x".data ∧
    visit_cast "q".data .datetime =
      "CAST(".data ++ "q".data ++ (" AS ".data ++ "DATETIME".data ++ [')']) := by
  constructor
  · exact (claim9_theorem (.float none none false false) "x".data).2.1 rfl
  · exact (claim9_theorem .datetime "q".data).2.2 "DATETIME".data rfl

/-- C3 counterexample: the claim says a tinyint column with any argument
other than `1` is materialized with the tiny-integer type; a parsed
tinyint column with argument text `2,3` instead raises `TypeError`
(the constructor takes at most one display width), aborting the
materialisation. -/
theorem claim3_counterexample :
    (parse_column "  `c` tinyint(2,3),".data).map (fun s => (s.coltype, s.arg)) =
      some ("tinyint".data, some "2,3".data) ∧
    add_column none "  `c` tinyint(2,3),".data [] = .error ctorArityErr := by
  exact ⟨by decide, by decide⟩

/-- C3 (amended): during column reflection with no allow-list, a column
whose parsed type token is `tinyint` with argument string `1` is
materialized with the boolean type and no type arguments; a `tinyint`
column with no argument, or with any other argument text parsing to at
most one positional value, is materialized with the tiny-integer type
(carrying that display width); an argument text parsing to two or more
positional values raises `TypeError`. -/
theorem claim3_theorem (tname : Option (List Char)) (line : List Char) (spec : ColSpec)
    (hp : parse_column line = some spec) (ht : spec.coltype = "tinyint".data) :
    (spec.arg = some ['1'] →
      (add_column tname line []).map (fun r => r.1.map (fun c => c.ctype)) =
        .ok (some .boolean)) ∧
    (spec.arg = none →
      (add_column tname line []).map (fun r => r.1.map (fun c => c.ctype)) =
        .ok (some (.tinyint none spec.unsigned spec.zerofill))) ∧
    (∀ a, spec.arg = some a → a ≠ ['1'] →
      ((typeArgsOf (some a)).length ≤ 1 →
        (add_column tname line []).map (fun r => r.1.map (fun c => c.ctype)) =
          .ok (some (.tinyint (typeArgsOf (some a)).head? spec.unsigned spec.zerofill))) ∧
      (2 ≤ (typeArgsOf (some a)).length →
        add_column tname line [] = .error ctorArityErr)) := by
  have hbool : ischema_names ['b', 'o', 'o', 'l', 'e', 'a', 'n'] = some TypeCtor.booleanC := by
    decide
  have htiny : ischema_names ['t', 'i', 'n', 'y', 'i', 'n', 't'] = some TypeCtor.tinyintC := by
    decide
  refine ⟨?_, ?_, ?_⟩
  · intro ha
    simp [add_column, hp, ht, ha, hbool, typeArgsOf, applyCtor, Except.map]
  · intro ha
    simp [add_column, hp, ht, ha, htiny, typeArgsOf, applyCtor, Except.map]
  · intro a ha hne
    constructor
    · intro hlen
      match h2 : typeArgsOf (some a) with
      | [] =>
        simp [add_column, hp, ht, ha, hne, htiny, h2, applyCtor, Except.map]
      | [x] =>
        simp [add_column, hp, ht, ha, hne, htiny, h2, applyCtor, Except.map]
      | x :: y :: rest => rw [h2] at hlen; simp at hlen
    · intro hlen
      match h2 : typeArgsOf (some a) with
      | [] => rw [h2] at hlen; simp at hlen
      | [x] => rw [h2] at hlen; simp at hlen
      | x :: y :: rest =>
        simp [add_column, hp, ht, ha, hne, htiny, h2, applyCtor, Except.map]

/-- C3 witness: `tinyint(1)` becomes boolean; `tinyint(2)` and bare
`tinyint` become tiny integers. -/
theorem claim3_witness :
    (add_column none "  `b` tinyint(1),".data []).map
        (fun r => r.1.map (fun c => c.ctype)) = .ok (some .boolean) ∧
    (add_column none "  `c` tinyint(2),".data []).map
        (fun r => r.1.map (fun c => c.ctype)) =
      .ok (some (.tinyint (some (.num 2)) false false)) ∧
    (add_column none "  `d` tinyint,".data []).map
        (fun r => r.1.map (fun c => c.ctype)) =
      .ok (some (.tinyint none false false)) := by
  refine ⟨?_, ?_, ?_⟩
  · exact (claim3_theorem none _
      ⟨"b".data, "tinyint".data, some ['1'], false, false, none, none, false, none,
        false, true⟩ (by decide) rfl).1 rfl
  · exact ((claim3_theorem none _
      ⟨"c".data, "tinyint".data, some ['2'], false, false, none, none, false, none,
        false, true⟩ (by decide) rfl).2.2 ['2'] rfl (by decide)).1 (by decide)
  · exact (claim3_theorem none _
      ⟨"d".data, "tinyint".data, none, false, false, none, none, false, none,
        false, true⟩ (by decide) rfl).2.1 rfl

/-- C8: during column reflection with no allow-list, a parsed type token
absent from the type-name catalog does not abort reflection: the column is
still added, typed with the generic untyped descriptor, and a
warning-level diagnostic naming the unrecognized type and the column is
emitted. -/
theorem claim8_theorem (tname : Option (List Char)) (line : List Char) (spec : ColSpec)
    (hp : parse_column line = some spec) (hn : ischema_names spec.coltype = none) :
    (add_column tname line []).map
        (fun r => (r.1.map (fun c => (c.name, c.ctype)), r.2)) =
      .ok (some (spec.name, .nullType),
        (if spec.full then [] else [incompleteColWarn line]) ++
          [unknownTypeWarn spec.coltype spec.name]) := by
  have htt : spec.coltype ≠ "tinyint".data := by
    intro h; rw [h] at hn; exact absurd hn (by decide)
  have hnull : ∀ args kwv, applyCtor TypeCtor.nullTypeC args kwv = .ok .nullType :=
    fun _ _ => rfl
  simp [add_column, hp, htt, hn, hnull, Except.map]

/-- C8 witness: an unknown `foobar(3)` column reflects as an untyped
column with the diagnostic. -/
theorem claim8_witness :
    (add_column none "  `a` foobar(3),".data []).map
        (fun r => (r.1.map (fun c => (c.name, c.ctype)), r.2)) =
      .ok (some ("a".data, .nullType),
        [unknownTypeWarn "foobar".data "a".data]) := by
  have h := claim8_theorem none "  `a` foobar(3),".data
    ⟨"a".data, "foobar".data, some ['3'], false, false, none, none, false, none,
      false, true⟩ (by decide) (by decide)
  simpa using h

theorem mapFst_mapWarn {σ : Type} (X : Except PyErr (σ × List (List Char)))
    (f : List (List Char) → List (List Char)) :
    (X.map (fun p => (p.1, f p.2))).map Prod.fst = X.map Prod.fst := by
  cases X <;> rfl

theorem set_keys_filter (only : List (List Char)) (ho : only ≠ []) (keys : List KeySpec) :
    ∀ st : TableState,
      (set_keys st keys only).map Prod.fst =
        (set_keys st (keys.filter fun spec =>
          (spec.columns.map (fun p => p.1)).all (fun n => only.contains n)) only).map
          Prod.fst := by
  induction keys with
  | nil => intro st; rfl
  | cons spec rest ih =>
    intro st
    by_cases hk : (spec.columns.map (fun p => p.1)).all (fun n => only.contains n) = true
    · rw [List.filter_cons, if_pos hk]
      simp only [set_keys]
      have hcond :
          ¬(only ≠ [] ∧
            ¬((spec.columns.map (fun p => p.1)).all (fun n => only.contains n) = true)) :=
        fun h => h.2 hk
      rw [if_neg hcond, if_neg hcond]
      by_cases hmiss :
          (spec.columns.map (fun p => p.1)).any
            (fun n => !st.columns.any fun c => c.name = n) = true
      · rw [if_pos hmiss, if_pos hmiss]
      · rw [if_neg hmiss, if_neg hmiss, mapFst_mapWarn, mapFst_mapWarn]
        exact ih _
    · rw [List.filter_cons, if_neg hk]
      simp only [set_keys]
      have hcond : (only ≠ [] ∧
          ¬((spec.columns.map (fun p => p.1)).all (fun n => only.contains n) = true)) :=
        ⟨ho, hk⟩
      rw [if_pos hcond, mapFst_mapWarn]
      exact ih st

theorem mapWarn_ok_iff {σ : Type} (X : Except PyErr (σ × List (List Char)))
    (f : List (List Char) → List (List Char)) (t : σ) (ws : List (List Char)) :
    X.map (fun p => (p.1, f p.2)) = .ok (t, ws) ↔
      ∃ ws', X = .ok (t, ws') ∧ ws = f ws' := by
  cases X with
  | error e => simp [Except.map]
  | ok p =>
    cases p with
    | mk a b =>
      simp only [Except.map, Except.ok.injEq, Prod.mk.injEq]
      constructor
      · rintro ⟨h1, h2⟩; exact ⟨b, ⟨h1, rfl⟩, h2.symm⟩
      · rintro ⟨ws', ⟨h1, h2⟩, rfl⟩
        subst h2
        exact ⟨h1, rfl⟩

theorem set_keys_omit_log (only : List (List Char)) (spec : KeySpec)
    (ho : only ≠ [])
    (hdrop : ¬ (spec.columns.map (fun p => p.1)).all (fun n => only.contains n) = true) :
    ∀ keys : List KeySpec, spec ∈ keys →
      ∀ st t ws, set_keys st keys only = .ok (t, ws) →
        omitKeyLog (spec.flavor.getD "index".data) (spec.columns.map (fun p => p.1)) ∈ ws := by
  intro keys
  induction keys with
  | nil => intro h; simp at h
  | cons k rest ih =>
    intro hmem st t ws hok
    rcases List.mem_cons.mp hmem with heq | hmem'
    · subst heq
      simp only [set_keys] at hok
      rw [if_pos ⟨ho, hdrop⟩, mapWarn_ok_iff] at hok
      obtain ⟨ws', -, rfl⟩ := hok
      exact List.mem_cons_self _ _
    · simp only [set_keys] at hok
      by_cases hc : (only ≠ [] ∧
          ¬ ((k.columns.map (fun p => p.1)).all (fun n => only.contains n) = true))
      · rw [if_pos hc, mapWarn_ok_iff] at hok
        obtain ⟨ws', hok', rfl⟩ := hok
        exact List.mem_cons_of_mem _ (ih hmem' _ _ _ hok')
      · rw [if_neg hc] at hok
        by_cases hmiss : ((k.columns.map (fun p => p.1)).any
            (fun n => !st.columns.any fun c => c.name = n)) = true
        · rw [if_pos hmiss] at hok; cases hok
        · rw [if_neg hmiss, mapWarn_ok_iff] at hok
          obtain ⟨ws', hok', rfl⟩ := hok
          exact List.mem_append_right _ (ih hmem' _ _ _ hok')

theorem set_constraints_filter (only : List (List Char)) (ho : only ≠ [])
    (ds : Option (List Char)) (cons : List ConsSpec) :
    ∀ st : TableState,
      (set_constraints st cons only ds).map Prod.fst =
        (set_constraints st (cons.filter fun spec =>
          spec.localCols.all (fun n => only.contains n)) only ds).map Prod.fst := by
  induction cons with
  | nil => intro st; rfl
  | cons spec rest ih =>
    intro st
    by_cases hk : spec.localCols.all (fun n => only.contains n) = true
    · rw [List.filter_cons, if_pos hk]
      simp only [set_constraints]
      have hcond : ¬(only ≠ [] ∧ ¬(spec.localCols.all (fun n => only.contains n) = true)) :=
        fun h => h.2 hk
      rw [if_neg hcond, if_neg hcond]
      exact ih _
    · rw [List.filter_cons, if_neg hk]
      simp only [set_constraints]
      rw [if_pos ⟨ho, hk⟩, mapFst_mapWarn]
      exact ih st

theorem set_constraints_omit_log (only : List (List Char)) (spec : ConsSpec)
    (ho : only ≠ [])
    (hdrop : ¬ spec.localCols.all (fun n => only.contains n) = true)
    (ds : Option (List Char)) :
    ∀ cons : List ConsSpec, spec ∈ cons →
      ∀ st t ws, set_constraints st cons only ds = .ok (t, ws) →
        omitFkLog spec.localCols ∈ ws := by
  intro cons
  induction cons with
  | nil => intro h; simp at h
  | cons k rest ih =>
    intro hmem st t ws hok
    rcases List.mem_cons.mp hmem with heq | hmem'
    · subst heq
      simp only [set_constraints] at hok
      rw [if_pos ⟨ho, hdrop⟩, mapWarn_ok_iff] at hok
      obtain ⟨ws', -, rfl⟩ := hok
      exact List.mem_cons_self _ _
    · simp only [set_constraints] at hok
      by_cases hc : (only ≠ [] ∧ ¬(k.localCols.all (fun n => only.contains n) = true))
      · rw [if_pos hc, mapWarn_ok_iff] at hok
        obtain ⟨ws', hok', rfl⟩ := hok
        exact List.mem_cons_of_mem _ (ih hmem' _ _ _ hok')
      · rw [if_neg hc] at hok
        exact ih hmem' _ _ _ hok

/-- C6: with a non-empty column allow-list, `_set_keys` and
`_set_constraints` behave exactly as if every key/foreign-key whose column
set is not wholly contained in the allow-list had been removed from the
input (each such key is dropped in its entirety), an omission diagnostic
is recorded for every dropped key/foreign-key, and reflecting a table with
a two-column primary key under an allow-list holding only one of the
columns yields a table with no primary-key constraint at all. -/
theorem claim6_theorem :
    (∀ (st : TableState) (keys : List KeySpec) (only : List (List Char)), only ≠ [] →
      (set_keys st keys only).map Prod.fst =
        (set_keys st (keys.filter fun spec =>
          (spec.columns.map (fun p => p.1)).all (fun n => only.contains n)) only).map
          Prod.fst) ∧
    (∀ (only : List (List Char)) (spec : KeySpec) (keys : List KeySpec), only ≠ [] →
      ¬ (spec.columns.map (fun p => p.1)).all (fun n => only.contains n) = true →
      spec ∈ keys → ∀ st t ws, set_keys st keys only = .ok (t, ws) →
        omitKeyLog (spec.flavor.getD "index".data)
          (spec.columns.map (fun p => p.1)) ∈ ws) ∧
    (∀ (st : TableState) (cons : List ConsSpec) (only : List (List Char))
        (ds : Option (List Char)), only ≠ [] →
      (set_constraints st cons only ds).map Prod.fst =
        (set_constraints st (cons.filter fun spec =>
          spec.localCols.all (fun n => only.contains n)) only ds).map Prod.fst) ∧
    (∀ (only : List (List Char)) (spec : ConsSpec) (cons : List ConsSpec)
        (ds : Option (List Char)), only ≠ [] →
      ¬ spec.localCols.all (fun n => only.contains n) = true →
      spec ∈ cons → ∀ st t ws, set_constraints st cons only ds = .ok (t, ws) →
        omitFkLog spec.localCols ∈ ws) ∧
    (reflect emptyTable twoColPkDDL ["a".data] none).map
        (fun r => (r.1.pk, r.1.columns.map (fun c => c.name))) =
      .ok (none, ["a".data]) ∧
    (reflect emptyTable twoColPkDDL ["a".data] none).map
        (fun r => decide (omitKeyLog "PRIMARY".data ["a".data, "b".data] ∈ r.2)) =
      .ok true := by
  refine ⟨fun st keys only ho => set_keys_filter only ho keys st,
    fun only spec keys ho hdrop hmem => set_keys_omit_log only spec ho hdrop keys hmem,
    fun st cons only ds ho => set_constraints_filter only ho ds cons st,
    fun only spec cons ds ho hdrop hmem =>
      set_constraints_omit_log only spec ho hdrop ds cons hmem,
    by decide, by decide⟩

/-- C6 witness: a two-column PRIMARY key under a one-column allow-list is
dropped whole, with its omission diagnostic. -/
theorem claim6_witness :
    (set_keys emptyTable
        [⟨some "PRIMARY".data, none, [("a".data, []), ("b".data, [])]⟩]
        ["a".data]).map Prod.fst = .ok emptyTable ∧
    omitKeyLog "PRIMARY".data ["a".data, "b".data] ∈
      [omitKeyLog "PRIMARY".data ["a".data, "b".data]] := by
  constructor
  · exact (claim6_theorem.1 emptyTable
      [⟨some "PRIMARY".data, none, [("a".data, []), ("b".data, [])]⟩]
      ["a".data] (by decide)).trans (by decide)
  · exact claim6_theorem.2.1 ["a".data]
      ⟨some "PRIMARY".data, none, [("a".data, []), ("b".data, [])]⟩
      [⟨some "PRIMARY".data, none, [("a".data, []), ("b".data, [])]⟩]
      (by decide) (by decide) (by simp) emptyTable emptyTable
      [omitKeyLog "PRIMARY".data ["a".data, "b".data]] (by decide)

theorem pySplitLines_single (l : List Char) (h : ∀ c ∈ l, c ≠ '\n' ∧ c ≠ '\r') :
    pySplitLines l = [l] := by
  induction l with
  | nil => rfl
  | cons c rest ih =>
    have hc := h c (by simp)
    have hrest : ∀ c ∈ rest, c ≠ '\n' ∧ c ≠ '\r' := fun x hx => h x (by simp [hx])
    rw [pySplitLines.eq_def]
    dsimp only
    rw [if_neg (by simp [hc.2]), if_neg hc.1, ih hrest]

theorem pySplitLines_break (l : List Char) (rest : List Char)
    (h : ∀ c ∈ l, c ≠ '\n' ∧ c ≠ '\r') :
    pySplitLines (l ++ '\n' :: rest) = l :: pySplitLines rest := by
  induction l with
  | nil =>
    show pySplitLines ('\n' :: rest) = [] :: pySplitLines rest
    rw [pySplitLines.eq_def]
    dsimp only
    rw [if_neg (by simp), if_pos rfl]
  | cons c tail ih =>
    have hc := h c (by simp)
    have htail : ∀ x ∈ tail, x ≠ '\n' ∧ x ≠ '\r' := fun x hx => h x (by simp [hx])
    rw [List.cons_append, pySplitLines.eq_def]
    dsimp only
    rw [if_neg (by simp [hc.2]), if_neg hc.1, ih htail]

theorem pySplitLines_join (ls : List (List Char))
    (h : ∀ l ∈ ls, ∀ c ∈ l, c ≠ '\n' ∧ c ≠ '\r') (hne : ls ≠ []) :
    pySplitLines (joinLinesNL ls) = ls := by
  induction ls with
  | nil => exact absurd rfl hne
  | cons l rest ih =>
    match rest with
    | [] =>
      exact pySplitLines_single l (h l (by simp))
    | m :: rest' =>
      rw [show joinLinesNL (l :: m :: rest') = l ++ '\n' :: joinLinesNL (m :: rest')
        from rfl]
      rw [pySplitLines_break l _ (h l (by simp))]
      rw [ih (fun x hx => h x (by simp [hx])) (by simp)]

theorem processLine_unknown (ℓ : List Char) (hbad : unparseableLine ℓ) :
    ∀ (st : RState) (only : List (List Char)),
      processLine st only ℓ = .ok (st, [badLineWarn ℓ]) := by
  intro st only
  rcases hbad with ⟨hpre, hnone⟩ | ⟨h1, h2, h3, h4, h5, h6⟩
  · simp [processLine, badLineWarn, hpre, add_column, hnone]
  · simp [processLine, badLineWarn, h1, h2, h3, h4, h5, h6]

theorem runLines_append (only : List (List Char)) (l1 : List (List Char)) :
    ∀ (l2 : List (List Char)) (st : RState),
      runLines st only (l1 ++ l2) =
        match runLines st only l1 with
        | .error e => .error e
        | .ok (st', ws) => (runLines st' only l2).map (fun p => (p.1, ws ++ p.2)) := by
  induction l1 with
  | nil =>
    intro l2 st
    cases hr : runLines st only l2 with
    | error e => simp [runLines, hr, Except.map]
    | ok p => simp [runLines, hr, Except.map]
  | cons l rest ih =>
    intro l2 st
    simp only [List.cons_append, runLines]
    cases hp : processLine st only l with
    | error e => rfl
    | ok p =>
      obtain ⟨st1, ws1⟩ := p
      dsimp only
      rw [show rest.append l2 = rest ++ l2 from rfl, ih l2 st1]
      cases hr : runLines st1 only rest with
      | error e => simp [Except.map]
      | ok q =>
        obtain ⟨st2, ws2⟩ := q
        cases hl2 : runLines st2 only l2 with
        | error e => simp [hl2, Except.map]
        | ok u => simp [hl2, Except.map, List.append_assoc]

theorem runLines_cons_unknown (ℓ : List Char) (hbad : unparseableLine ℓ)
    (st : RState) (only : List (List Char)) (post : List (List Char)) :
    runLines st only (ℓ :: post) =
      (runLines st only post).map (fun p => (p.1, [badLineWarn ℓ] ++ p.2)) := by
  simp only [runLines]
  rw [processLine_unknown ℓ hbad st only]

theorem runLines_skip_fst (ℓ : List Char) (hbad : unparseableLine ℓ)
    (st : RState) (only : List (List Char)) (pre post : List (List Char)) :
    (runLines st only (pre ++ ℓ :: post)).map Prod.fst =
      (runLines st only (pre ++ post)).map Prod.fst := by
  rw [runLines_append only pre (ℓ :: post) st, runLines_append only pre post st]
  cases h1 : runLines st only pre with
  | error e => rfl
  | ok p =>
    obtain ⟨st1, ws1⟩ := p
    dsimp only
    rw [runLines_cons_unknown ℓ hbad st1 only post]
    cases h2 : runLines st1 only post with
    | error e => rfl
    | ok q => simp [Except.map]

theorem runLines_skip_warn (ℓ : List Char) (hbad : unparseableLine ℓ)
    (st : RState) (only : List (List Char)) (pre post : List (List Char))
    (stf : RState) (ws : List (List Char))
    (hok : runLines st only (pre ++ ℓ :: post) = .ok (stf, ws)) :
    badLineWarn ℓ ∈ ws := by
  rw [runLines_append only pre (ℓ :: post) st] at hok
  cases h1 : runLines st only pre with
  | error e => rw [h1] at hok; cases hok
  | ok p =>
    obtain ⟨st1, ws1⟩ := p
    rw [h1] at hok
    dsimp only at hok
    rw [runLines_cons_unknown ℓ hbad st1 only post] at hok
    cases h2 : runLines st1 only post with
    | error e => rw [h2] at hok; cases hok
    | ok q =>
      rw [h2] at hok
      simp only [Except.map, Except.ok.injEq, Prod.mk.injEq] at hok
      rw [← hok.2]
      exact List.mem_append_right _ (List.mem_append_left _ (by simp))

theorem reflect_skip (ℓ : List Char) (hbad : unparseableLine ℓ)
    (tbl : TableState) (only : List (List Char)) (ds : Option (List Char))
    (pre post : List (List Char))
    (hnl : ∀ l ∈ pre ++ ℓ :: post, ∀ c ∈ l, c ≠ '\n' ∧ c ≠ '\r')
    (hne : pre ++ post ≠ []) :
    (reflect tbl (joinLinesNL (pre ++ ℓ :: post)) only ds).map Prod.fst =
      (reflect tbl (joinLinesNL (pre ++ post)) only ds).map Prod.fst ∧
    (∀ t ws, reflect tbl (joinLinesNL (pre ++ ℓ :: post)) only ds = .ok (t, ws) →
      badLineWarn ℓ ∈ ws) := by
  have hnl2 : ∀ l ∈ pre ++ post, ∀ c ∈ l, c ≠ '\n' ∧ c ≠ '\r' := by
    intro l hl
    rcases List.mem_append.mp hl with h | h
    · exact hnl l (List.mem_append_left _ h)
    · exact hnl l (List.mem_append_right _ (List.mem_cons_of_mem _ h))
  have hs1 := pySplitLines_join (pre ++ ℓ :: post) hnl (by simp)
  have hs2 := pySplitLines_join (pre ++ post) hnl2 hne
  have hfst := runLines_skip_fst ℓ hbad ⟨tbl, [], []⟩ only pre post
  simp only [reflect]
  rw [hs1, hs2]
  cases hA : runLines ⟨tbl, [], []⟩ only (pre ++ ℓ :: post) with
  | error e =>
    cases hB : runLines ⟨tbl, [], []⟩ only (pre ++ post) with
    | error f =>
      rw [hA, hB] at hfst
      simp only [Except.map, Except.error.injEq] at hfst
      subst hfst
      exact ⟨rfl, fun t ws h => by cases h⟩
    | ok q =>
      rw [hA, hB] at hfst
      simp [Except.map] at hfst
  | ok p =>
    cases hB : runLines ⟨tbl, [], []⟩ only (pre ++ post) with
    | error f =>
      rw [hA, hB] at hfst
      simp [Except.map] at hfst
    | ok q =>
      obtain ⟨stA, wsA⟩ := p
      obtain ⟨stB, wsB⟩ := q
      rw [hA, hB] at hfst
      simp only [Except.map, Except.ok.injEq] at hfst
      cases hfst
      dsimp only
      cases hk : set_keys stA.table stA.keys only with
      | error e => exact ⟨rfl, fun t ws h => by cases h⟩
      | ok r1 =>
        obtain ⟨t1, ws1⟩ := r1
        dsimp only
        cases hc : set_constraints t1 stA.cons only ds with
        | error e => exact ⟨rfl, fun t ws h => by cases h⟩
        | ok r2 =>
          obtain ⟨t2, ws2⟩ := r2
          refine ⟨rfl, ?_⟩
          intro t ws h
          simp only [Except.ok.injEq, Prod.mk.injEq] at h
          rw [← h.2]
          exact List.mem_append_left _ (List.mem_append_left _
            (runLines_skip_warn ℓ hbad ⟨tbl, [], []⟩ only pre post stA wsA hA))

/-- C7: an unparseable line (one that matches neither column pattern when
it looks like a column line, or none of the KEY/CONSTRAINT/PARTITION
sub-parsers otherwise) never aborts reflection: processing it returns the
state unchanged with exactly the non-fatal diagnostic, the line-loop over
any input containing it produces the same state as the same input without
it (so every other well-formed column line is still reflected), the
diagnostic appears among the emitted warnings, and the same holds through
the full `reflect` entry point. -/
theorem claim7_theorem (ℓ : List Char) (hbad : unparseableLine ℓ) :
    (∀ (st : RState) (only : List (List Char)),
      processLine st only ℓ = .ok (st, [badLineWarn ℓ])) ∧
    (∀ (st : RState) (only : List (List Char)) (pre post : List (List Char)),
      (runLines st only (pre ++ ℓ :: post)).map Prod.fst =
        (runLines st only (pre ++ post)).map Prod.fst) ∧
    (∀ (st : RState) (only : List (List Char)) (pre post : List (List Char))
        (stf : RState) (ws : List (List Char)),
      runLines st only (pre ++ ℓ :: post) = .ok (stf, ws) → badLineWarn ℓ ∈ ws) ∧
    (∀ (tbl : TableState) (only : List (List Char)) (ds : Option (List Char))
        (pre post : List (List Char)),
      (∀ l ∈ pre ++ ℓ :: post, ∀ c ∈ l, c ≠ '\n' ∧ c ≠ '\r') → pre ++ post ≠ [] →
      (reflect tbl (joinLinesNL (pre ++ ℓ :: post)) only ds).map Prod.fst =
        (reflect tbl (joinLinesNL (pre ++ post)) only ds).map Prod.fst ∧
      (∀ t ws, reflect tbl (joinLinesNL (pre ++ ℓ :: post)) only ds = .ok (t, ws) →
        badLineWarn ℓ ∈ ws)) := by
  exact ⟨processLine_unknown ℓ hbad,
    fun st only pre post => runLines_skip_fst ℓ hbad st only pre post,
    fun st only pre post stf ws => runLines_skip_warn ℓ hbad st only pre post stf ws,
    fun tbl only ds pre post hnl hne => reflect_skip ℓ hbad tbl only ds pre post hnl hne⟩

/-- C7 witness: a garbage line inside a two-column table is skipped with
the diagnostic, and the reflected table equals that of the input without
the garbage line. -/
theorem claim7_witness :
    (reflect emptyTable
        (joinLinesNL ["  `a` int(11),".data, "  garbage".data, "  `b` int(11)".data])
        [] none).map Prod.fst =
      (reflect emptyTable
        (joinLinesNL ["  `a` int(11),".data, "  `b` int(11)".data]) [] none).map
        Prod.fst ∧
    processLine ⟨emptyTable, [], []⟩ [] "  garbage".data =
      .ok (⟨emptyTable, [], []⟩, [badLineWarn "  garbage".data]) := by
  constructor
  · have h := claim7_theorem "  garbage".data (by decide)
    exact (h.2.2.2 emptyTable [] none
      ["  `a` int(11),".data] ["  `b` int(11)".data] (by decide) (by decide)).1
  · have h := claim7_theorem "  garbage".data (by decide)
    exact h.1 ⟨emptyTable, [], []⟩ []

/-- C5 witness: a uniformly single-quoted list selects quoted mode and is
stripped. -/
theorem claim5_witness :
    (msEnumInit .auto [[apos, 'a', apos], [apos, 'b', apos]]).1 = .quoted ∧
    (msEnumInit .auto [[apos, 'a', apos], [apos, 'b', apos]]).2 = [['a'], ['b']] := by
  have h := (claim5_theorem [[apos, 'a', apos], [apos, 'b', apos]]).2.2.2.2
    (by
      intro e he
      rcases List.mem_cons.mp he with h1 | h2
      · exact ⟨['a'], by rw [h1]; rfl⟩
      · rcases List.mem_cons.mp h2 with h3 | h4
        · exact ⟨['b'], by rw [h3]; rfl⟩
        · simp at h4)
  exact ⟨h.1, h.2.trans (by decide)⟩

theorem runsList_head (xs rest : List Char) (caps : Caps) :
    ∃ t, runsList xs rest caps = (rest, caps) :: t := by
  induction xs with
  | nil => exact ⟨[], rfl⟩
  | cons d ds ih =>
    obtain ⟨t, ht⟩ := ih
    exact ⟨t ++ [((d :: ds) ++ rest, caps)], by rw [runsList, ht]; rfl⟩

theorem starLoop_cls_runs (p : Char → Bool) (xs : List Char) :
    ∀ (fuel : Nat) (rest : List Char) (caps : Caps),
      (∀ c ∈ xs, p c = true) →
      (∀ c, rest.head? = some c → p c = false) →
      xs.length ≤ fuel →
      starLoop (fun s c => mAll (.cls p) s c) true fuel (xs ++ rest) caps =
        runsList xs rest caps := by
  induction xs with
  | nil =>
    intro fuel rest caps _ h2 _
    cases fuel with
    | zero => rfl
    | succ f =>
      cases rest with
      | nil => rfl
      | cons c rest2 =>
        have hc : p c = false := h2 c rfl
        simp [starLoop, mAll, hc, runsList]
  | cons d ds ih =>
    intro fuel rest caps h1 h2 hlen
    cases fuel with
    | zero => simp at hlen
    | succ f =>
      have hd : p d = true := h1 d (List.mem_cons_self d ds)
      have hih := ih f rest caps (fun c hc => h1 c (List.mem_cons_of_mem d hc)) h2
        (by simpa using Nat.lt_succ_iff.mp (Nat.lt_of_lt_of_le (Nat.lt_succ_self _) (Nat.succ_le_succ hlen)))
      simp only [List.cons_append, starLoop, mAll, hd, if_true]
      simp only [List.flatMap_cons, List.flatMap_nil, List.append_nil]
      rw [if_pos (by simp)]
      simp only [List.append_eq]
      rw [hih]
      rfl

theorem mAll_star_cls_runs (p : Char → Bool) (xs rest : List Char) (caps : Caps)
    (h1 : ∀ c ∈ xs, p c = true)
    (h2 : ∀ c, rest.head? = some c → p c = false) :
    mAll (.star true (.cls p)) (xs ++ rest) caps = runsList xs rest caps := by
  have := starLoop_cls_runs p xs (xs ++ rest).length rest caps h1 h2
    (by simp)
  simpa [mAll] using this

/-- A star whose body has no match consumes nothing. -/
theorem mAll_star_stop (g : Bool) (r : RE) (s : List Char) (caps : Caps)
    (h : mAll r s caps = []) : mAll (.star g r) s caps = [(s, caps)] := by
  show starLoop _ g s.length s caps = _
  cases hf : s.length with
  | zero => cases g <;> rfl
  | succ f => cases g <;> simp [starLoop, h]

/-- A lazy star's first result consumes nothing. -/
theorem mAll_star_lazy_cons (r : RE) (s : List Char) (caps : Caps) :
    ∃ t, mAll (.star false r) s caps = (s, caps) :: t := by
  show ∃ t, starLoop _ false s.length s caps = _
  cases hf : s.length with
  | zero => exact ⟨[], rfl⟩
  | succ f => exact ⟨_, rfl⟩

theorem flatMap_runsList_nil {β : Type} (f : List Char × Caps → List β)
    (xs : List Char) : ∀ (rest : List Char) (caps : Caps),
    (∀ t ∈ xs.tails, f (t ++ rest, caps) = []) →
    (runsList xs rest caps).flatMap f = [] := by
  induction xs with
  | nil =>
    intro rest caps h
    have := h [] (by simp)
    simp only [List.nil_append] at this
    simp [runsList, this]
  | cons d ds ih =>
    intro rest caps h
    rw [runsList, List.flatMap_append]
    rw [ih rest caps (fun t ht => h t (by simp [List.tails_cons]; right; simpa using ht))]
    have := h (d :: ds) (by simp [List.tails_cons])
    simp only [List.cons_append] at this
    simp [this]

theorem flatMap_runsList_first {β : Type} (f : List Char × Caps → List β)
    (xs : List Char) : ∀ (rest : List Char) (caps : Caps),
    (∀ t ∈ xs.tails, t ≠ [] → f (t ++ rest, caps) = []) →
    (runsList xs rest caps).flatMap f = f (rest, caps) := by
  induction xs with
  | nil =>
    intro rest caps _
    simp [runsList]
  | cons d ds ih =>
    intro rest caps h
    rw [runsList, List.flatMap_append]
    rw [ih rest caps (fun t ht hne => h t (by simp [List.tails_cons]; right; simpa using ht) hne)]
    have := h (d :: ds) (by simp [List.tails_cons]) (by simp)
    simp only [List.cons_append] at this
    simp [this]

theorem capsApp_nil (a : Caps) : capsApp a [] = a := by
  show List.append _ _ = _
  simp [List.append_eq]

theorem nil_capsApp (a : Caps) : capsApp [] a = a := rfl

theorem capShift_nil (q : List Char × Caps) : capShift [] q = q := by
  show (q.1, List.append _ _) = q
  simp [List.append_eq]

theorem capShift_capShift (a b : Caps) (q : List Char × Caps) :
    capShift a (capShift b q) = capShift (capsApp b a) q := by
  show (q.1, capsApp (capsApp q.2 b) a) = (q.1, capsApp q.2 (capsApp b a))
  unfold capsApp
  simp [List.append_eq, List.append_assoc]

theorem starLoop_shift (f : List Char → Caps → List (List Char × Caps)) (g : Bool)
    (hf : ∀ (s : List Char) (c0 : Caps), f s c0 = (f s []).map (capShift c0)) :
    ∀ (fuel : Nat) (s : List Char) (c0 : Caps),
      starLoop f g fuel s c0 = (starLoop f g fuel s []).map (capShift c0) := by
  intro fuel
  induction fuel with
  | zero => intro s c0; cases g <;> simp [starLoop, capShift, nil_capsApp]
  | succ n ih =>
    intro s c0
    have hdeep :
        ((f s c0).flatMap fun r =>
          if r.1.length < s.length then starLoop f g n r.1 r.2 else []) =
        (((f s []).flatMap fun r =>
          if r.1.length < s.length then starLoop f g n r.1 r.2 else []).map
            (capShift c0)) := by
      rw [hf s c0, List.flatMap_map, List.map_flatMap]
      apply List.flatMap_congr
      intro q _
      by_cases hq : q.1.length < s.length
      · have : (capShift c0 q).1 = q.1 := rfl
        rw [this, if_pos hq, if_pos hq]
        show starLoop f g n q.1 (capsApp q.2 c0) = _
        rw [ih q.1 (capsApp q.2 c0), ih q.1 q.2]
        simp only [List.map_map]
        apply List.map_congr_left
        intro x _
        exact (capShift_capShift c0 q.2 x).symm
      · have : (capShift c0 q).1 = q.1 := rfl
        rw [this, if_neg hq, if_neg hq]
        rfl
    cases g <;> simp [starLoop, hdeep, capShift, nil_capsApp]

theorem mAll_shift (r : RE) : ∀ (s : List Char) (c0 : Caps),
    mAll r s c0 = (mAll r s []).map (capShift c0) := by
  induction r with
  | eps => intro s c0; simp [mAll, capShift, nil_capsApp]
  | cls p =>
    intro s c0
    cases s with
    | nil => simp [mAll]
    | cons c t => by_cases h : p c <;> simp [mAll, h, capShift, nil_capsApp]
  | lit l =>
    intro s c0
    cases h : litMatchCI l s <;> simp [mAll, h, capShift, nil_capsApp]
  | seq a b iha ihb =>
    intro s c0
    show (mAll a s c0).flatMap _ = ((mAll a s []).flatMap _).map _
    rw [iha, List.flatMap_map, List.map_flatMap]
    apply List.flatMap_congr
    intro q _
    show mAll b (capShift c0 q).1 (capsApp q.2 c0) = _
    have h1 : (capShift c0 q).1 = q.1 := rfl
    rw [h1, ihb q.1 (capsApp q.2 c0), ihb q.1 q.2]
    simp only [List.map_map]
    apply List.map_congr_left
    intro x _
    exact (capShift_capShift c0 q.2 x).symm
  | alt a b iha ihb =>
    intro s c0
    show mAll a s c0 ++ mAll b s c0 = (mAll a s [] ++ mAll b s []).map _
    rw [iha, ihb, List.map_append]
  | star g a ih =>
    intro s c0
    exact starLoop_shift (fun s c => mAll a s c) g ih s.length s c0
  | opt g a ih =>
    intro s c0
    cases g
    · show (s, c0) :: mAll a s c0 =
        (((s : List Char), ([] : Caps)) :: mAll a s []).map (capShift c0)
      rw [ih s c0]
      simp [capShift, nil_capsApp]
    · show mAll a s c0 ++ [(s, c0)] =
        (mAll a s [] ++ ([((s : List Char), ([] : Caps))] : List (List Char × Caps))).map (capShift c0)
      rw [ih s c0]
      simp [capShift, nil_capsApp]
  | grp n a ih =>
    intro s c0
    show (mAll a s c0).map _ = ((mAll a s []).map _).map _
    rw [ih]
    simp only [List.map_map]
    apply List.map_congr_left
    intro x _
    rfl
  | look pos a ih =>
    intro s c0
    have hiso : (mAll a s c0).isEmpty = (mAll a s []).isEmpty := by
      rw [ih s c0]
      cases mAll a s [] <;> simp
    cases pos
    · show (if (mAll a s c0).isEmpty then [(s, c0)] else []) =
        (if (mAll a s []).isEmpty then ([((s : List Char), ([] : Caps))] : List (List Char × Caps))
         else []).map (capShift c0)
      rw [hiso]
      by_cases hh : (mAll a s []).isEmpty <;> simp [hh, capShift, nil_capsApp]
    · show (if (mAll a s c0).isEmpty then [] else [(s, c0)]) =
        (if (mAll a s []).isEmpty then []
         else ([((s : List Char), ([] : Caps))] : List (List Char × Caps))).map (capShift c0)
      rw [hiso]
      by_cases hh : (mAll a s []).isEmpty <;> simp [hh, capShift, nil_capsApp]
  | eos =>
    intro s c0
    by_cases h : s.isEmpty <;> simp [mAll, h, capShift, nil_capsApp]

theorem natDigitsAux_mem : ∀ (fuel n : Nat) (c : Char),
    c ∈ natDigitsAux n fuel → c ∈ tenChars := by
  intro fuel
  induction fuel with
  | zero => intro n c hc; simp [natDigitsAux] at hc
  | succ f ih =>
    intro n c hc
    rw [natDigitsAux] at hc
    by_cases h10 : n < 10
    · rw [if_pos h10] at hc
      simp only [List.mem_singleton] at hc
      subst hc
      interval_cases n <;> decide
    · rw [if_neg h10] at hc
      rcases List.mem_append.mp hc with h | h
      · exact ih _ c h
      · simp only [List.mem_singleton] at h
        subst h
        have : n % 10 < 10 := Nat.mod_lt _ (by decide)
        generalize hEq : n % 10 = m at this
        interval_cases m <;> decide

theorem natDigits_mem (n : Nat) : ∀ c ∈ natDigits n, c ∈ tenChars :=
  fun c hc => natDigitsAux_mem (n + 1) n c hc

theorem natDigits_ne_nil (n : Nat) : natDigits n ≠ [] := by
  rw [natDigits, natDigitsAux]
  by_cases h10 : n < 10
  · rw [if_pos h10]; simp
  · rw [if_neg h10]; simp

theorem pyIntDigits_snoc (xs : List Char) (c : Char) :
    pyIntDigits (xs ++ [c]) = 10 * pyIntDigits xs + (c.toNat - 48) := by
  simp [pyIntDigits, List.foldl_append]

theorem natDigitsAux_int : ∀ (fuel n : Nat), n < fuel →
    pyIntDigits (natDigitsAux n fuel) = n := by
  intro fuel
  induction fuel with
  | zero => intro n h; omega
  | succ f ih =>
    intro n h
    rw [natDigitsAux]
    by_cases h10 : n < 10
    · rw [if_pos h10]
      interval_cases n <;> decide
    · rw [if_neg h10]
      rw [pyIntDigits_snoc]
      have hdiv : n / 10 < f := by omega
      rw [ih _ hdiv]
      have hm : (Nat.digitChar (n % 10)).toNat - 48 = n % 10 := by
        have hlt : n % 10 < 10 := Nat.mod_lt _ (by decide)
        generalize hEq : n % 10 = m at *
        interval_cases m <;> decide
      rw [hm]
      omega

/-- `int` inverts the decimal rendering. -/
theorem pyIntDigits_natDigits (n : Nat) : pyIntDigits (natDigits n) = n :=
  natDigitsAux_int (n + 1) n (Nat.lt_succ_self n)

/-- The group-capture arithmetic: the consumed prefix is recovered by
`take`. -/
theorem take_sub_append (pre suf : List Char) :
    (pre ++ suf).take ((pre ++ suf).length - suf.length) = pre := by
  have h : (pre ++ suf).length - suf.length = pre.length := by
    simp [List.length_append]
  rw [h, List.take_left]

/-! Definitional equations of `mAll`, for targeted rewriting. -/

theorem mAll_seq (a b : RE) (s : List Char) (caps : Caps) :
    mAll (.seq a b) s caps = (mAll a s caps).flatMap (fun r => mAll b r.1 r.2) := rfl

theorem mAll_alt (a b : RE) (s : List Char) (caps : Caps) :
    mAll (.alt a b) s caps = mAll a s caps ++ mAll b s caps := rfl

theorem mAll_grp (n : Nat) (a : RE) (s : List Char) (caps : Caps) :
    mAll (.grp n a) s caps =
      (mAll a s caps).map
        (fun r => (r.1, setCap n (s.take (s.length - r.1.length)) r.2)) := rfl

theorem mAll_optT (a : RE) (s : List Char) (caps : Caps) :
    mAll (.opt true a) s caps = mAll a s caps ++ [(s, caps)] := rfl

theorem mAll_optF (a : RE) (s : List Char) (caps : Caps) :
    mAll (.opt false a) s caps = (s, caps) :: mAll a s caps := rfl

theorem mAll_cls_cons (p : Char → Bool) (c : Char) (s : List Char) (caps : Caps) :
    mAll (.cls p) (c :: s) caps = if p c then [(s, caps)] else [] := rfl

theorem mAll_eos_cons (c : Char) (s : List Char) (caps : Caps) :
    mAll .eos (c :: s) caps = [] := rfl

theorem ten_isDigit : ∀ c ∈ tenChars, isDigitB c = true := by decide

theorem ten_wordChar : ∀ c ∈ tenChars, wordCharB c = true := by decide

theorem litMatch_comma_ten (c : Char) (hc : c ∈ tenChars) (s : List Char) :
    litMatchCI [','] (c :: s) = none := by fin_cases hc <;> rfl

theorem litMatch_rparen_ten (c : Char) (hc : c ∈ tenChars) (s : List Char) :
    litMatchCI [')'] (c :: s) = none := by fin_cases hc <;> rfl

theorem litMatch_apos_ten (c : Char) (hc : c ∈ tenChars) (s : List Char) :
    litMatchCI [apos] (c :: s) = none := by fin_cases hc <;> rfl

/-- `\d+` on a digit run followed by a non-digit: the runs, longest
first. -/
theorem mAll_rep1_digits (ds rest : List Char) (caps : Caps)
    (hne : ds ≠ []) (hten : ∀ c ∈ ds, c ∈ tenChars)
    (hrest : ∀ c, rest.head? = some c → isDigitB c = false) :
    mAll (rep1 (.cls isDigitB)) (ds ++ rest) caps =
      runsList ds.tail rest caps := by
  obtain ⟨d, ds1, rfl⟩ : ∃ d ds1, ds = d :: ds1 := by
    cases ds with
    | nil => exact absurd rfl hne
    | cons d ds1 => exact ⟨d, ds1, rfl⟩
  have hd : isDigitB d = true := ten_isDigit d (hten d (by simp))
  rw [rep1, mAll_seq, List.cons_append, mAll_cls_cons, if_pos hd]
  rw [List.flatMap_cons, List.flatMap_nil, List.append_nil]
  rw [mAll_star_cls_runs _ _ _ _ (fun c hc => ten_isDigit c (hten c (by simp [hc]))) hrest]
  rfl

/-- The strict argument group `\((?P<arg>\d+|\d+,\d+|...)\)` on a pure
digit argument: exactly one result, capturing the digits. -/
theorem argTake_eval (ds tail0 : List Char) (caps : Caps)
    (hne : ds ≠ []) (hten : ∀ c ∈ ds, c ∈ tenChars) :
    mAll (.seq (.lit ['(']) (.seq (.grp 3 argAlts) (.lit [')'])))
      ('(' :: (ds ++ ')' :: tail0)) caps
      = [(tail0, setCap 3 ds caps)] := by
  obtain ⟨d, ds1, rfl⟩ : ∃ d ds1, ds = d :: ds1 := by
    cases ds with
    | nil => exact absurd rfl hne
    | cons d ds1 => exact ⟨d, ds1, rfl⟩
  have hten1 : ∀ c ∈ ds1, c ∈ tenChars := fun c hc => hten c (by simp [hc])
  have htails : ∀ t ∈ ds1.tails, ∀ c ∈ t, c ∈ tenChars := by
    intro t ht c hc
    exact hten1 c (((List.mem_tails _ _).mp ht).subset hc)
  rw [mAll_seq]
  rw [show mAll (.lit ['(']) ('(' :: ((d :: ds1) ++ ')' :: tail0)) caps
      = [(((d :: ds1) ++ ')' :: tail0 : List Char), caps)] from rfl]
  rw [List.flatMap_cons, List.flatMap_nil, List.append_nil]
  rw [mAll_seq, mAll_grp]
  -- the three argument alternatives
  have hA1 : mAll (rep1 (.cls isDigitB)) ((d :: ds1) ++ ')' :: tail0) caps =
      runsList ds1 (')' :: tail0) caps := by
    rw [mAll_rep1_digits _ _ _ hne hten (fun c hc => by simp at hc; subst hc; rfl)]
    rfl
  have hA2 : mAll (.seq (rep1 (.cls isDigitB))
      (.seq (.lit [',']) (rep1 (.cls isDigitB)))) ((d :: ds1) ++ ')' :: tail0) caps = [] := by
    rw [mAll_seq, hA1]
    apply flatMap_runsList_nil
    intro t ht
    cases t with
    | nil => rfl
    | cons c t1 =>
      have hc : c ∈ tenChars := htails _ ht c (by simp)
      show mAll (.seq (.lit [',']) (rep1 (.cls isDigitB))) ((c :: t1) ++ ')' :: tail0) caps = []
      rw [mAll_seq]
      rw [show mAll (.lit [',']) ((c :: t1) ++ ')' :: tail0) caps
          = (match litMatchCI [','] (c :: (t1 ++ ')' :: tail0)) with
             | some t => [(t, caps)] | none => []) from rfl]
      rw [litMatch_comma_ten c hc]
      rfl
  have hcsv : mAll reCsvStr ((d :: ds1) ++ ')' :: tail0) caps = [] := by
    have hd : d ∈ tenChars := hten d (by simp)
    rw [show reCsvStr = .seq (.lit [apos])
        (.seq (.star true (.alt (.lit [apos, apos]) (.cls notQuoteB))) (.lit [apos])) from rfl]
    rw [mAll_seq]
    rw [show mAll (.lit [apos]) ((d :: ds1) ++ ')' :: tail0) caps
        = (match litMatchCI [apos] (d :: (ds1 ++ ')' :: tail0)) with
           | some t => [(t, caps)] | none => []) from rfl]
    rw [litMatch_apos_ten d hd]
    rfl
  have hA3 : mAll (rep1 (.seq reCsvStr (.opt true (.lit [','])))) ((d :: ds1) ++ ')' :: tail0) caps = [] := by
    rw [rep1, mAll_seq, mAll_seq, hcsv]
    rfl
  rw [show argAlts = .alt (rep1 (.cls isDigitB))
      (.alt (.seq (rep1 (.cls isDigitB)) (.seq (.lit [',']) (rep1 (.cls isDigitB))))
        (rep1 (.seq reCsvStr (.opt true (.lit [',']))))) from rfl]
  rw [mAll_alt, mAll_alt, hA1, hA2, hA3, List.append_nil, List.append_nil]
  rw [List.flatMap_map]
  rw [flatMap_runsList_first _ _ _ _ (by
    intro t ht hne2
    cases t with
    | nil => exact absurd rfl hne2
    | cons c t1 =>
      have hc : c ∈ tenChars := htails _ ht c (by simp)
      show mAll (.lit [')']) ((c :: t1) ++ ')' :: tail0)
          (setCap 3 ((((d :: ds1) ++ ')' :: tail0 : List Char)).take
            ((((d :: ds1) ++ ')' :: tail0 : List Char)).length
              - ((c :: t1) ++ ')' :: tail0 : List Char).length)) caps) = []
      rw [show mAll (.lit [')']) ((c :: t1) ++ ')' :: tail0)
          (setCap 3 ((((d :: ds1) ++ ')' :: tail0 : List Char)).take
            ((((d :: ds1) ++ ')' :: tail0 : List Char)).length
              - ((c :: t1) ++ ')' :: tail0 : List Char).length)) caps)
          = (match litMatchCI [')'] (c :: (t1 ++ ')' :: tail0)) with
             | some t => [(t, setCap 3 ((((d :: ds1) ++ ')' :: tail0 : List Char)).take
                  ((((d :: ds1) ++ ')' :: tail0 : List Char)).length
                    - ((c :: t1) ++ ')' :: tail0 : List Char).length)) caps)]
             | none => []) from rfl]
      rw [litMatch_rparen_ten c hc])]
  show mAll (.lit [')']) (')' :: tail0)
      (setCap 3 ((((d :: ds1) ++ ')' :: tail0 : List Char)).take
        ((((d :: ds1) ++ ')' :: tail0 : List Char)).length
          - (')' :: tail0 : List Char).length)) caps) = _
  rw [take_sub_append]
  rfl

/-- Every optional clause of `_re_column` after the argument requires a
leading space, so on a subject whose head is neither a space nor a comma
the tail has no match (the anchor rejects the nonempty leftover). -/
theorem reColTail_dies (c : Char) (s : List Char) (caps : Caps)
    (hsp : c ≠ ' ') (hcm : litMatchCI [','] (c :: s) = none) :
    mAll reColTail (c :: s) caps = [] := by
  have hsp1 : ∀ caps2 : Caps, mAll sp1 (c :: s) caps2 = [] := by
    intro caps2
    rw [sp1, rep1, mAll_seq, mAll_cls_cons]
    simp [hsp]
  have hguard : ∀ (Y : RE) (caps2 : Caps),
      mAll (.opt true (.seq sp1 Y)) (c :: s) caps2 = [((c :: s : List Char), caps2)] := by
    intro Y caps2
    rw [mAll_optT, mAll_seq, hsp1]
    rfl
  simp only [reColTail, mAll_seq, hguard, List.flatMap_cons, List.flatMap_nil,
    List.nil_append, List.append_nil]
  rw [mAll_optT]
  rw [show mAll (.lit [',']) (c :: s) caps
      = (match litMatchCI [','] (c :: s) with
         | some t => [(t, caps)] | none => []) from rfl]
  rw [hcm]
  rfl

/-- The whole post-`coltype` part of `_re_column` likewise has no match
when the subject starts with anything but a space, a comma or an opening
parenthesis. -/
theorem reColRest_dies (c : Char) (s : List Char) (caps : Caps)
    (hsp : c ≠ ' ')
    (hcm : litMatchCI [','] (c :: s) = none)
    (hlp : litMatchCI ['('] (c :: s) = none) :
    mAll reColRest (c :: s) caps = [] := by
  simp only [reColRest, reColArg, mAll_seq, mAll_optT]
  rw [show mAll (.lit ['(']) (c :: s) caps
      = (match litMatchCI ['('] (c :: s) with
         | some t => [(t, caps)] | none => []) from rfl]
  rw [hlp]
  simp only [List.nil_append, List.flatMap_nil, List.nil_append, List.flatMap_cons,
    List.flatMap_nil, List.append_nil]
  exact reColTail_dies c s caps hsp hcm

/-- The common prefix of a rendered column line: indent, quoted name `c`
and the separating space, leaving the `coltype` group against the type
text.  Shared by the strict and the loose pattern, which differ only in
`R`. -/
theorem quoted_prefix_eval (R : RE) (k : Char) (M : List Char) (hk : k ≠ ' ') :
    mAll (.seq (.lit "  ".data) (.seq (quotedIdent 1)
        (.seq sp1 (.seq (.grp 2 (rep1 (.cls wordCharB))) R))))
      ([' ', ' ', btick, 'c', btick, ' '] ++ (k :: M)) [] =
      mAll (.seq (.grp 2 (rep1 (.cls wordCharB))) R) (k :: M) (setCap 1 ['c'] []) := by
  rw [mAll_seq]
  rw [show mAll (.lit "  ".data) ([' ', ' ', btick, 'c', btick, ' '] ++ (k :: M)) []
      = [((btick :: 'c' :: btick :: ' ' :: k :: M : List Char), ([] : Caps))] from rfl]
  rw [List.flatMap_cons, List.flatMap_nil, List.append_nil]
  rw [mAll_seq]
  have hqid : mAll (quotedIdent 1) (btick :: 'c' :: btick :: ' ' :: k :: M) [] =
      [((' ' :: k :: M : List Char), setCap 1 ['c'] [])] := by
    simp only [quotedIdent]
    rw [mAll_seq]
    rw [show mAll (.lit [btick]) (btick :: 'c' :: btick :: ' ' :: k :: M) []
        = [(('c' :: btick :: ' ' :: k :: M : List Char), ([] : Caps))] from rfl]
    rw [List.flatMap_cons, List.flatMap_nil, List.append_nil]
    rw [mAll_seq, mAll_grp]
    have hbody : mAll (rep1 (.alt (.lit [btick, btick]) (.cls notBtickB)))
        ('c' :: btick :: ' ' :: k :: M) [] =
        [((btick :: ' ' :: k :: M : List Char), ([] : Caps))] := by
      rw [rep1, mAll_seq]
      rw [show mAll (.alt (.lit [btick, btick]) (.cls notBtickB))
          ('c' :: btick :: ' ' :: k :: M) []
          = [((btick :: ' ' :: k :: M : List Char), ([] : Caps))] from rfl]
      rw [List.flatMap_cons, List.flatMap_nil, List.append_nil]
      rw [mAll_star_stop _ _ _ _ (by rfl)]
    rw [hbody]
    rw [show ('c' :: btick :: ' ' :: k :: M : List Char)
        = ['c'] ++ (btick :: ' ' :: k :: M) from rfl]
    simp only [List.map_cons, List.map_nil, take_sub_append]
    rw [List.flatMap_cons, List.flatMap_nil, List.append_nil]
    rfl
  rw [hqid]
  rw [List.flatMap_cons, List.flatMap_nil, List.append_nil]
  rw [mAll_seq]
  have hsp1 : mAll sp1 (' ' :: k :: M) (setCap 1 ['c'] []) =
      [((k :: M : List Char), setCap 1 ['c'] [])] := by
    rw [sp1, rep1, mAll_seq]
    rw [show mAll (.cls fun c => c = ' ') (' ' :: k :: M) (setCap 1 ['c'] [])
        = [((k :: M : List Char), setCap 1 ['c'] [])] from rfl]
    rw [List.flatMap_cons, List.flatMap_nil, List.append_nil]
    rw [mAll_star_stop _ _ _ _ (by rw [mAll_cls_cons]; simp [hk])]
  rw [hsp1]
  rw [List.flatMap_cons, List.flatMap_nil, List.append_nil]

theorem reColumn_lead (k : Char) (M : List Char) (hk : k ≠ ' ') :
    mAll reColumn ([' ', ' ', btick, 'c', btick, ' '] ++ (k :: M)) [] =
      mAll (.seq (.grp 2 (rep1 (.cls wordCharB))) reColRest) (k :: M) (setCap 1 ['c'] []) :=
  quoted_prefix_eval reColRest k M hk

theorem reColumnLoose_lead (k : Char) (M : List Char) (hk : k ≠ ' ') :
    mAll reColumnLoose ([' ', ' ', btick, 'c', btick, ' '] ++ (k :: M)) [] =
      mAll (.seq (.grp 2 (rep1 (.cls wordCharB))) reColLooseRest) (k :: M) (setCap 1 ['c'] []) :=
  quoted_prefix_eval reColLooseRest k M hk

/-- The `coltype` group consumes exactly the keyword when an opening
parenthesis follows and every shorter consumption kills the rest of the
pattern. -/
theorem coltype_step (k : Char) (kr tl : List Char) (caps : Caps)
    (hkword : wordCharB k = true)
    (hkr : ∀ c ∈ kr, wordCharB c = true)
    (hdies : ∀ t ∈ kr.tails, t ≠ [] → ∀ caps2 : Caps,
        mAll reColRest (t ++ '(' :: tl) caps2 = []) :
    mAll (.seq (.grp 2 (rep1 (.cls wordCharB))) reColRest)
      ((k :: kr) ++ '(' :: tl) caps =
      mAll reColRest ('(' :: tl) (setCap 2 (k :: kr) caps) := by
  rw [mAll_seq, mAll_grp, rep1, mAll_seq, List.cons_append, mAll_cls_cons, if_pos hkword]
  rw [List.flatMap_cons, List.flatMap_nil, List.append_nil]
  rw [mAll_star_cls_runs _ _ _ _ hkr (by intro c hc; simp at hc; subst hc; rfl)]
  rw [List.flatMap_map]
  rw [flatMap_runsList_first _ _ _ _ (by
    intro t ht hne2
    exact hdies t ht hne2 _)]
  show mAll reColRest ('(' :: tl)
      (setCap 2 (((k :: kr) ++ '(' :: tl : List Char).take
        (((k :: kr) ++ '(' :: tl : List Char).length - ('(' :: tl : List Char).length)) caps) = _
  rw [take_sub_append]

/-- A rendered `KEYWORD(digits)FLAGS` column line against the strict
pattern: the whole pattern reduces to its tail on the flag text, with
name, type and argument captured. -/
theorem reColumn_strict_eval (k : Char) (kr ds fl : List Char)
    (hkword : wordCharB k = true) (hkr : ∀ c ∈ kr, wordCharB c = true)
    (hk : k ≠ ' ')
    (hne : ds ≠ []) (hten : ∀ c ∈ ds, c ∈ tenChars)
    (hdies : ∀ t ∈ kr.tails, t ≠ [] → ∀ caps2 : Caps,
        mAll reColRest (t ++ '(' :: (ds ++ ')' :: fl)) caps2 = []) :
    mAll reColumn
      ([' ', ' ', btick, 'c', btick, ' '] ++ ((k :: kr) ++ '(' :: (ds ++ ')' :: fl))) [] =
      mAll reColTail fl (setCap 3 ds (setCap 2 (k :: kr) (setCap 1 ['c'] []))) := by
  rw [show ((k :: kr) ++ '(' :: (ds ++ ')' :: fl) : List Char)
      = k :: (kr ++ '(' :: (ds ++ ')' :: fl)) from rfl]
  rw [reColumn_lead k _ hk]
  rw [show (k :: (kr ++ '(' :: (ds ++ ')' :: fl)) : List Char)
      = (k :: kr) ++ '(' :: (ds ++ ')' :: fl) from rfl]
  rw [coltype_step k kr _ _ hkword hkr hdies]
  rw [show reColRest = .seq reColArg reColTail from rfl, mAll_seq]
  rw [show reColArg = .opt true (.seq (.lit ['(']) (.seq (.grp 3 argAlts) (.lit [')']))) from rfl]
  rw [mAll_optT]
  rw [argTake_eval ds fl _ hne hten]
  rw [List.flatMap_append, List.flatMap_cons, List.flatMap_nil, List.flatMap_cons,
    List.flatMap_nil, List.append_nil, List.append_nil]
  rw [reColTail_dies '(' _ _ (by decide) rfl]
  rw [List.append_nil]

theorem findAllF_succ (r : RE) (f : Nat) (s : List Char) :
    findAllF r (f + 1) s =
      match mAll r s [] with
      | (s', caps) :: _ =>
        let m := (s.take (s.length - s'.length), caps)
        if s'.length < s.length then m :: findAllF r f s'
        else
          m :: (match s with | [] => [] | _ :: t => findAllF r f t)
      | [] => match s with | [] => [] | _ :: t => findAllF r f t := rfl

theorem findAllF_empty (r : RE) (h : mAll r [] [] = []) :
    ∀ f : Nat, findAllF r f [] = [] := by
  intro f
  cases f with
  | zero => rfl
  | succ f2 => rw [findAllF_succ, h]

/-- `findall(\d+)` on a pure digit run: the single whole-run match. -/
theorem findAll_digits (ds : List Char) (hne : ds ≠ [])
    (hten : ∀ c ∈ ds, c ∈ tenChars) :
    findAll reCsvInt ds = [(ds, [])] := by
  have hm : mAll reCsvInt ds [] = runsList ds.tail [] [] := by
    have := mAll_rep1_digits ds [] [] hne hten (fun c hc => by simp at hc)
    rw [List.append_nil] at this
    exact this
  obtain ⟨t, ht⟩ := runsList_head ds.tail [] []
  rw [findAll, findAllF_succ, hm, ht]
  dsimp only
  rw [if_pos (by simpa using List.length_pos.mpr hne)]
  rw [findAllF_empty reCsvInt rfl]
  simp

/-- `_add_column`'s argument interpretation of a captured digit run. -/
theorem typeArgsOf_digits (ds : List Char) (hne : ds ≠ [])
    (hten : ∀ c ∈ ds, c ∈ tenChars) :
    typeArgsOf (some ds) = [TArg.num (pyIntDigits ds)] := by
  obtain ⟨d, ds1, rfl⟩ : ∃ d ds1, ds = d :: ds1 := by
    cases ds with
    | nil => exact absurd rfl hne
    | cons d ds1 => exact ⟨d, ds1, rfl⟩
  have hd : d ∈ tenChars := hten d (by simp)
  have hdne : d ≠ apos := by fin_cases hd <;> decide
  rw [typeArgsOf]
  rw [if_neg (by simp)]
  rw [if_neg (by
    rintro ⟨h1, _⟩
    simp at h1
    exact hdne h1)]
  rw [findAll_digits _ hne hten]
  simp

/-- The common round-trip core: a column line `  \x60c\x60 KW(digits)FLAGS`
parses via the strict pattern to the summary with the lower-cased
keyword, the numeric argument, both flags, and `full`. -/
theorem strict_roundtrip_core (k : Char) (kr tagl : List Char) (w : Nat) (u z : Bool)
    (hkword : wordCharB k = true) (hkr : ∀ c ∈ kr, wordCharB c = true)
    (hk : k ≠ ' ')
    (hdies : ∀ fl2 : List Char, ∀ t ∈ kr.tails, t ≠ [] → ∀ caps2 : Caps,
        mAll reColRest (t ++ '(' :: (natDigits w ++ ')' :: fl2)) caps2 = [])
    (htag : (k :: kr).map Char.toLower = tagl) :
    (parse_column ([' ', ' ', btick, 'c', btick, ' '] ++
        ((k :: kr) ++ '(' :: (natDigits w ++ ')' ::
          ((if u then " UNSIGNED".data else []) ++
           (if z then " ZEROFILL".data else [])))))).map specSummary =
      some ⟨tagl, [TArg.num w], u, z, true⟩ := by
  have hds : natDigits w ≠ [] := natDigits_ne_nil w
  have hten : ∀ c ∈ natDigits w, c ∈ tenChars := natDigits_mem w
  have hmain : ∀ fl2 : List Char,
      mAll reColumn ([' ', ' ', btick, 'c', btick, ' '] ++
        ((k :: kr) ++ '(' :: (natDigits w ++ ')' :: fl2))) [] =
      mAll reColTail fl2
        (setCap 3 (natDigits w) (setCap 2 (k :: kr) (setCap 1 ['c'] []))) :=
    fun fl2 => reColumn_strict_eval k kr (natDigits w) fl2 hkword hkr hk hds hten (hdies fl2)
  have hargs : typeArgsOf (some (natDigits w)) = [TArg.num w] := by
    rw [typeArgsOf_digits _ hds hten, pyIntDigits_natDigits]
  cases u <;> cases z
  · -- no flags
    rw [show ((if false = true then " UNSIGNED".data else []) ++
        (if false = true then " ZEROFILL".data else []) : List Char) = [] from rfl]
    rw [parse_column, reMatch, hmain []]
    rw [mAll_shift, show mAll reColTail [] [] = [(([] : List Char), ([] : Caps))] from by decide]
    simp only [List.map_cons, List.map_nil]
    show some (specSummary (specOfStrict (capShift (setCap 3 (natDigits w)
        (setCap 2 (k :: kr) (setCap 1 ['c'] []))) (([] : List Char), ([] : Caps))).2)) =
      some ⟨tagl, [TArg.num w], false, false, true⟩
    rw [show specSummary (specOfStrict (capShift (setCap 3 (natDigits w)
        (setCap 2 (k :: kr) (setCap 1 ['c'] []))) (([] : List Char), ([] : Caps))).2)
        = ⟨(k :: kr).map Char.toLower, typeArgsOf (some (natDigits w)),
            false, false, true⟩ from rfl]
    rw [htag, hargs]
  · -- ZEROFILL only
    rw [show ((if false = true then " UNSIGNED".data else []) ++
        (if true = true then " ZEROFILL".data else []) : List Char) = " ZEROFILL".data from by simp]
    rw [parse_column, reMatch, hmain " ZEROFILL".data]
    rw [mAll_shift, show mAll reColTail " ZEROFILL".data [] =
        [(([] : List Char), ([(5, "ZEROFILL".data)] : Caps)),
         (([] : List Char), ([(14, "ZEROFILL".data)] : Caps))] from by decide]
    simp only [List.map_cons, List.map_nil]
    show some (specSummary (specOfStrict (capShift (setCap 3 (natDigits w)
        (setCap 2 (k :: kr) (setCap 1 ['c'] [])))
        (([] : List Char), ([(5, "ZEROFILL".data)] : Caps))).2)) =
      some ⟨tagl, [TArg.num w], false, true, true⟩
    rw [show specSummary (specOfStrict (capShift (setCap 3 (natDigits w)
        (setCap 2 (k :: kr) (setCap 1 ['c'] [])))
        (([] : List Char), ([(5, "ZEROFILL".data)] : Caps))).2)
        = ⟨(k :: kr).map Char.toLower, typeArgsOf (some (natDigits w)),
            false, true, true⟩ from rfl]
    rw [htag, hargs]
  · -- UNSIGNED only
    rw [show ((if true = true then " UNSIGNED".data else []) ++
        (if false = true then " ZEROFILL".data else []) : List Char) = " UNSIGNED".data from by simp]
    rw [parse_column, reMatch, hmain " UNSIGNED".data]
    rw [mAll_shift, show mAll reColTail " UNSIGNED".data [] =
        [(([] : List Char), ([(4, "UNSIGNED".data)] : Caps)),
         (([] : List Char), ([(14, "UNSIGNED".data)] : Caps))] from by decide]
    simp only [List.map_cons, List.map_nil]
    show some (specSummary (specOfStrict (capShift (setCap 3 (natDigits w)
        (setCap 2 (k :: kr) (setCap 1 ['c'] [])))
        (([] : List Char), ([(4, "UNSIGNED".data)] : Caps))).2)) =
      some ⟨tagl, [TArg.num w], true, false, true⟩
    rw [show specSummary (specOfStrict (capShift (setCap 3 (natDigits w)
        (setCap 2 (k :: kr) (setCap 1 ['c'] [])))
        (([] : List Char), ([(4, "UNSIGNED".data)] : Caps))).2)
        = ⟨(k :: kr).map Char.toLower, typeArgsOf (some (natDigits w)),
            true, false, true⟩ from rfl]
    rw [htag, hargs]
  · -- UNSIGNED ZEROFILL
    rw [show ((if true = true then " UNSIGNED".data else []) ++
        (if true = true then " ZEROFILL".data else []) : List Char)
        = " UNSIGNED ZEROFILL".data from by simp]
    rw [parse_column, reMatch, hmain " UNSIGNED ZEROFILL".data]
    rw [mAll_shift, show mAll reColTail " UNSIGNED ZEROFILL".data [] =
        [(([] : List Char), ([(5, "ZEROFILL".data), (4, "UNSIGNED".data)] : Caps)),
         (([] : List Char), ([(14, "ZEROFILL".data), (4, "UNSIGNED".data)] : Caps)),
         (([] : List Char), ([(14, "UNSIGNED ZEROFILL".data)] : Caps))] from by decide]
    simp only [List.map_cons, List.map_nil]
    show some (specSummary (specOfStrict (capShift (setCap 3 (natDigits w)
        (setCap 2 (k :: kr) (setCap 1 ['c'] [])))
        (([] : List Char), ([(5, "ZEROFILL".data), (4, "UNSIGNED".data)] : Caps))).2)) =
      some ⟨tagl, [TArg.num w], true, true, true⟩
    rw [show specSummary (specOfStrict (capShift (setCap 3 (natDigits w)
        (setCap 2 (k :: kr) (setCap 1 ['c'] [])))
        (([] : List Char), ([(5, "ZEROFILL".data), (4, "UNSIGNED".data)] : Caps))).2)
        = ⟨(k :: kr).map Char.toLower, typeArgsOf (some (natDigits w)),
            true, true, true⟩ from rfl]
    rw [htag, hargs]

theorem roundtrip_integer (w : Nat) (u z : Bool) :
    (parse_column (mkColumnLine (.integer (some (.num w)) u z))).map specSummary =
      some ⟨"integer".data, [TArg.num w], u, z, true⟩ := by
  have hcompile : mkColumnLine (.integer (some (.num w)) u z) =
      [' ', ' ', btick, 'c', btick, ' '] ++
        (('I' :: "NTEGER".data) ++ '(' :: (natDigits w ++ ')' ::
          ((if u then " UNSIGNED".data else []) ++ (if z then " ZEROFILL".data else [])))) := by
    rw [mkColumnLine]
    cases u <;> cases z <;>
      simp [typeCompile, extend_numeric, mysql_type, isMSIntegerT, isStringTypeT,
        isMSNumericT, isBinaryTypeT, unsignedFlag, zerofillFlag, targOptStr, targStr,
        List.append_assoc]
  rw [hcompile]
  exact strict_roundtrip_core 'I' "NTEGER".data "integer".data w u z (by decide) (by decide)
    (by decide)
    (fun fl2 t ht hne2 caps2 => by
      fin_cases ht <;>
        first
          | exact absurd rfl hne2
          | exact reColRest_dies _ _ _ (by decide) rfl rfl)
    (by decide)

theorem roundtrip_bigint (w : Nat) (u z : Bool) :
    (parse_column (mkColumnLine (.bigint (some (.num w)) u z))).map specSummary =
      some ⟨"bigint".data, [TArg.num w], u, z, true⟩ := by
  have hcompile : mkColumnLine (.bigint (some (.num w)) u z) =
      [' ', ' ', btick, 'c', btick, ' '] ++
        (('B' :: "IGINT".data) ++ '(' :: (natDigits w ++ ')' ::
          ((if u then " UNSIGNED".data else []) ++ (if z then " ZEROFILL".data else [])))) := by
    rw [mkColumnLine]
    cases u <;> cases z <;>
      simp [typeCompile, extend_numeric, mysql_type, isMSIntegerT, isStringTypeT,
        isMSNumericT, isBinaryTypeT, unsignedFlag, zerofillFlag, targOptStr, targStr,
        List.append_assoc]
  rw [hcompile]
  exact strict_roundtrip_core 'B' "IGINT".data "bigint".data w u z (by decide) (by decide)
    (by decide)
    (fun fl2 t ht hne2 caps2 => by
      fin_cases ht <;>
        first
          | exact absurd rfl hne2
          | exact reColRest_dies _ _ _ (by decide) rfl rfl)
    (by decide)

theorem roundtrip_mediumint (w : Nat) (u z : Bool) :
    (parse_column (mkColumnLine (.mediumint (some (.num w)) u z))).map specSummary =
      some ⟨"mediumint".data, [TArg.num w], u, z, true⟩ := by
  have hcompile : mkColumnLine (.mediumint (some (.num w)) u z) =
      [' ', ' ', btick, 'c', btick, ' '] ++
        (('M' :: "EDIUMINT".data) ++ '(' :: (natDigits w ++ ')' ::
          ((if u then " UNSIGNED".data else []) ++ (if z then " ZEROFILL".data else [])))) := by
    rw [mkColumnLine]
    cases u <;> cases z <;>
      simp [typeCompile, extend_numeric, mysql_type, isMSIntegerT, isStringTypeT,
        isMSNumericT, isBinaryTypeT, unsignedFlag, zerofillFlag, targOptStr, targStr,
        List.append_assoc]
  rw [hcompile]
  exact strict_roundtrip_core 'M' "EDIUMINT".data "mediumint".data w u z (by decide) (by decide)
    (by decide)
    (fun fl2 t ht hne2 caps2 => by
      fin_cases ht <;>
        first
          | exact absurd rfl hne2
          | exact reColRest_dies _ _ _ (by decide) rfl rfl)
    (by decide)

theorem roundtrip_tinyint (w : Nat) (u z : Bool) :
    (parse_column (mkColumnLine (.tinyint (some (.num w)) u z))).map specSummary =
      some ⟨"tinyint".data, [TArg.num w], u, z, true⟩ := by
  have hcompile : mkColumnLine (.tinyint (some (.num w)) u z) =
      [' ', ' ', btick, 'c', btick, ' '] ++
        (('T' :: "INYINT".data) ++ '(' :: (natDigits w ++ ')' ::
          ((if u then " UNSIGNED".data else []) ++ (if z then " ZEROFILL".data else [])))) := by
    rw [mkColumnLine]
    cases u <;> cases z <;>
      simp [typeCompile, extend_numeric, mysql_type, isMSIntegerT, isStringTypeT,
        isMSNumericT, isBinaryTypeT, unsignedFlag, zerofillFlag, targOptStr, targStr,
        List.append_assoc]
  rw [hcompile]
  exact strict_roundtrip_core 'T' "INYINT".data "tinyint".data w u z (by decide) (by decide)
    (by decide)
    (fun fl2 t ht hne2 caps2 => by
      fin_cases ht <;>
        first
          | exact absurd rfl hne2
          | exact reColRest_dies _ _ _ (by decide) rfl rfl)
    (by decide)

theorem roundtrip_smallint (w : Nat) (u z : Bool) :
    (parse_column (mkColumnLine (.smallint (some (.num w)) u z))).map specSummary =
      some ⟨"smallint".data, [TArg.num w], u, z, true⟩ := by
  have hcompile : mkColumnLine (.smallint (some (.num w)) u z) =
      [' ', ' ', btick, 'c', btick, ' '] ++
        (('S' :: "MALLINT".data) ++ '(' :: (natDigits w ++ ')' ::
          ((if u then " UNSIGNED".data else []) ++ (if z then " ZEROFILL".data else [])))) := by
    rw [mkColumnLine]
    cases u <;> cases z <;>
      simp [typeCompile, extend_numeric, mysql_type, isMSIntegerT, isStringTypeT,
        isMSNumericT, isBinaryTypeT, unsignedFlag, zerofillFlag, targOptStr, targStr,
        List.append_assoc]
  rw [hcompile]
  exact strict_roundtrip_core 'S' "MALLINT".data "smallint".data w u z (by decide) (by decide)
    (by decide)
    (fun fl2 t ht hne2 caps2 => by
      fin_cases ht <;>
        first
          | exact absurd rfl hne2
          | exact reColRest_dies _ _ _ (by decide) rfl rfl)
    (by decide)

theorem roundtrip_varchar (n : Nat) (hn : 0 < n) :
    (parse_column (mkColumnLine (.varchar (some (.num n)) {}))).map specSummary =
      some ⟨"varchar".data, [TArg.num n], false, false, true⟩ := by
  have hcompile : mkColumnLine (.varchar (some (.num n)) {}) =
      [' ', ' ', btick, 'c', btick, ' '] ++
        (('V' :: "ARCHAR".data) ++ '(' :: (natDigits n ++ ')' ::
          ((if false then " UNSIGNED".data else []) ++
           (if false then " ZEROFILL".data else [])))) := by
    rw [mkColumnLine]
    simp [typeCompile, extend_string, optTruthy, targTruthy, hn.ne', strAttrsOf,
      joinSpace, mysql_type, isMSIntegerT, isStringTypeT, isMSNumericT, isBinaryTypeT,
      targOptStr, targStr, List.intercalate, List.append_assoc]
  rw [hcompile]
  exact strict_roundtrip_core 'V' "ARCHAR".data "varchar".data n false false
    (by decide) (by decide) (by decide)
    (fun fl2 t ht hne2 caps2 => by
      fin_cases ht <;>
        first
          | exact absurd rfl hne2
          | exact reColRest_dies _ _ _ (by decide) rfl rfl)
    (by decide)

theorem roundtrip_char (n : Nat) :
    (parse_column (mkColumnLine (.char (some (.num n)) {}))).map specSummary =
      some ⟨"char".data, [TArg.num n], false, false, true⟩ := by
  have hcompile : mkColumnLine (.char (some (.num n)) {}) =
      [' ', ' ', btick, 'c', btick, ' '] ++
        (('C' :: "HAR".data) ++ '(' :: (natDigits n ++ ')' ::
          ((if false then " UNSIGNED".data else []) ++
           (if false then " ZEROFILL".data else [])))) := by
    rw [mkColumnLine]
    simp [typeCompile, extend_string, strAttrsOf, joinSpace, mysql_type,
      isMSIntegerT, isStringTypeT, isMSNumericT, isBinaryTypeT,
      targOptStr, targStr, List.intercalate, List.append_assoc]
  rw [hcompile]
  exact strict_roundtrip_core 'C' "HAR".data "char".data n false false
    (by decide) (by decide) (by decide)
    (fun fl2 t ht hne2 caps2 => by
      fin_cases ht <;>
        first
          | exact absurd rfl hne2
          | exact reColRest_dies _ _ _ (by decide) rfl rfl)
    (by decide)

/-- The strict argument group has no match on `digits, digits)`: the
space after the comma (as the type compiler renders it) is accepted by
none of the alternatives. -/
theorem argTake_dies_comma (ds1 R : List Char) (caps : Caps)
    (hne : ds1 ≠ []) (hten : ∀ c ∈ ds1, c ∈ tenChars) :
    mAll (.seq (.lit ['(']) (.seq (.grp 3 argAlts) (.lit [')'])))
      ('(' :: (ds1 ++ ',' :: ' ' :: R)) caps = [] := by
  obtain ⟨d, dr, rfl⟩ : ∃ d dr, ds1 = d :: dr := by
    cases ds1 with
    | nil => exact absurd rfl hne
    | cons d dr => exact ⟨d, dr, rfl⟩
  have htails : ∀ t ∈ dr.tails, ∀ c ∈ t, c ∈ tenChars := by
    intro t ht c hc
    exact hten c (by simp [((List.mem_tails _ _).mp ht).subset hc])
  rw [mAll_seq]
  rw [show mAll (.lit ['(']) ('(' :: ((d :: dr) ++ ',' :: ' ' :: R)) caps
      = [(((d :: dr) ++ ',' :: ' ' :: R : List Char), caps)] from rfl]
  rw [List.flatMap_cons, List.flatMap_nil, List.append_nil]
  rw [mAll_seq, mAll_grp]
  have hA1 : mAll (rep1 (.cls isDigitB)) ((d :: dr) ++ ',' :: ' ' :: R) caps =
      runsList dr (',' :: ' ' :: R) caps := by
    rw [mAll_rep1_digits _ _ _ hne hten (fun c hc => by simp at hc; subst hc; rfl)]
    rfl
  have hA2 : mAll (.seq (rep1 (.cls isDigitB))
      (.seq (.lit [',']) (rep1 (.cls isDigitB)))) ((d :: dr) ++ ',' :: ' ' :: R) caps = [] := by
    rw [mAll_seq, hA1]
    apply flatMap_runsList_nil
    intro t ht
    cases t with
    | nil => rfl
    | cons c t1 =>
      have hc : c ∈ tenChars := htails _ ht c (by simp)
      show mAll (.seq (.lit [',']) (rep1 (.cls isDigitB))) ((c :: t1) ++ ',' :: ' ' :: R) caps = []
      rw [mAll_seq]
      rw [show mAll (.lit [',']) ((c :: t1) ++ ',' :: ' ' :: R) caps
          = (match litMatchCI [','] (c :: (t1 ++ ',' :: ' ' :: R)) with
             | some t => [(t, caps)] | none => []) from rfl]
      rw [litMatch_comma_ten c hc]
      rfl
  have hcsv : mAll reCsvStr ((d :: dr) ++ ',' :: ' ' :: R) caps = [] := by
    have hd : d ∈ tenChars := hten d (by simp)
    rw [show reCsvStr = .seq (.lit [apos])
        (.seq (.star true (.alt (.lit [apos, apos]) (.cls notQuoteB))) (.lit [apos])) from rfl]
    rw [mAll_seq]
    rw [show mAll (.lit [apos]) ((d :: dr) ++ ',' :: ' ' :: R) caps
        = (match litMatchCI [apos] (d :: (dr ++ ',' :: ' ' :: R)) with
           | some t => [(t, caps)] | none => []) from rfl]
    rw [litMatch_apos_ten d hd]
    rfl
  have hA3 : mAll (rep1 (.seq reCsvStr (.opt true (.lit [','])))) ((d :: dr) ++ ',' :: ' ' :: R) caps = [] := by
    rw [rep1, mAll_seq, mAll_seq, hcsv]
    rfl
  rw [show argAlts = .alt (rep1 (.cls isDigitB))
      (.alt (.seq (rep1 (.cls isDigitB)) (.seq (.lit [',']) (rep1 (.cls isDigitB))))
        (rep1 (.seq reCsvStr (.opt true (.lit [',']))))) from rfl]
  rw [mAll_alt, mAll_alt, hA1, hA2, hA3, List.append_nil, List.append_nil]
  rw [List.flatMap_map]
  apply flatMap_runsList_nil
  intro t ht
  cases t with
  | nil => rfl
  | cons c t1 =>
    have hc : c ∈ tenChars := htails _ ht c (by simp)
    show mAll (.lit [')']) ((c :: t1) ++ ',' :: ' ' :: R)
        (setCap 3 ((((d :: dr) ++ ',' :: ' ' :: R : List Char)).take
          ((((d :: dr) ++ ',' :: ' ' :: R : List Char)).length
            - ((c :: t1) ++ ',' :: ' ' :: R : List Char).length)) caps) = []
    rw [show mAll (.lit [')']) ((c :: t1) ++ ',' :: ' ' :: R)
        (setCap 3 ((((d :: dr) ++ ',' :: ' ' :: R : List Char)).take
          ((((d :: dr) ++ ',' :: ' ' :: R : List Char)).length
            - ((c :: t1) ++ ',' :: ' ' :: R : List Char).length)) caps)
        = (match litMatchCI [')'] (c :: (t1 ++ ',' :: ' ' :: R)) with
           | some t => [(t, setCap 3 ((((d :: dr) ++ ',' :: ' ' :: R : List Char)).take
                ((((d :: dr) ++ ',' :: ' ' :: R : List Char)).length
                  - ((c :: t1) ++ ',' :: ' ' :: R : List Char).length)) caps)]
           | none => []) from rfl]
    rw [litMatch_rparen_ten c hc]

/-- The loose argument group likewise has no match on `digits, digits)`. -/
theorem argLooseTake_dies_comma (ds1 R : List Char) (caps : Caps)
    (hne : ds1 ≠ []) (hten : ∀ c ∈ ds1, c ∈ tenChars) :
    mAll (.seq (.lit ['(']) (.seq (.grp 3 argLoose) (.lit [')'])))
      ('(' :: (ds1 ++ ',' :: ' ' :: R)) caps = [] := by
  obtain ⟨d, dr, rfl⟩ : ∃ d dr, ds1 = d :: dr := by
    cases ds1 with
    | nil => exact absurd rfl hne
    | cons d dr => exact ⟨d, dr, rfl⟩
  have htails : ∀ t ∈ dr.tails, ∀ c ∈ t, c ∈ tenChars := by
    intro t ht c hc
    exact hten c (by simp [((List.mem_tails _ _).mp ht).subset hc])
  rw [mAll_seq]
  rw [show mAll (.lit ['(']) ('(' :: ((d :: dr) ++ ',' :: ' ' :: R)) caps
      = [(((d :: dr) ++ ',' :: ' ' :: R : List Char), caps)] from rfl]
  rw [List.flatMap_cons, List.flatMap_nil, List.append_nil]
  rw [mAll_seq, mAll_grp]
  have hA1 : mAll (rep1 (.cls isDigitB)) ((d :: dr) ++ ',' :: ' ' :: R) caps =
      runsList dr (',' :: ' ' :: R) caps := by
    rw [mAll_rep1_digits _ _ _ hne hten (fun c hc => by simp at hc; subst hc; rfl)]
    rfl
  have hA2 : mAll (.seq (rep1 (.cls isDigitB))
      (.seq (.lit [',']) (rep1 (.cls isDigitB)))) ((d :: dr) ++ ',' :: ' ' :: R) caps = [] := by
    rw [mAll_seq, hA1]
    apply flatMap_runsList_nil
    intro t ht
    cases t with
    | nil => rfl
    | cons c t1 =>
      have hc : c ∈ tenChars := htails _ ht c (by simp)
      show mAll (.seq (.lit [',']) (rep1 (.cls isDigitB))) ((c :: t1) ++ ',' :: ' ' :: R) caps = []
      rw [mAll_seq]
      rw [show mAll (.lit [',']) ((c :: t1) ++ ',' :: ' ' :: R) caps
          = (match litMatchCI [','] (c :: (t1 ++ ',' :: ' ' :: R)) with
             | some t => [(t, caps)] | none => []) from rfl]
      rw [litMatch_comma_ten c hc]
      rfl
  have hA3 : mAll (.seq (.lit [apos])
      (.seq (rep1 (.alt (.lit [apos, apos]) (.cls notQuoteB))) (.lit [apos])))
      ((d :: dr) ++ ',' :: ' ' :: R) caps = [] := by
    have hd : d ∈ tenChars := hten d (by simp)
    rw [mAll_seq]
    rw [show mAll (.lit [apos]) ((d :: dr) ++ ',' :: ' ' :: R) caps
        = (match litMatchCI [apos] (d :: (dr ++ ',' :: ' ' :: R)) with
           | some t => [(t, caps)] | none => []) from rfl]
    rw [litMatch_apos_ten d hd]
    rfl
  rw [show argLoose = .alt (rep1 (.cls isDigitB))
      (.alt (.seq (rep1 (.cls isDigitB)) (.seq (.lit [',']) (rep1 (.cls isDigitB))))
        (.seq (.lit [apos])
          (.seq (rep1 (.alt (.lit [apos, apos]) (.cls notQuoteB))) (.lit [apos])))) from rfl]
  rw [mAll_alt, mAll_alt, hA1, hA2, hA3, List.append_nil, List.append_nil]
  rw [List.flatMap_map]
  apply flatMap_runsList_nil
  intro t ht
  cases t with
  | nil => rfl
  | cons c t1 =>
    have hc : c ∈ tenChars := htails _ ht c (by simp)
    show mAll (.lit [')']) ((c :: t1) ++ ',' :: ' ' :: R)
        (setCap 3 ((((d :: dr) ++ ',' :: ' ' :: R : List Char)).take
          ((((d :: dr) ++ ',' :: ' ' :: R : List Char)).length
            - ((c :: t1) ++ ',' :: ' ' :: R : List Char).length)) caps) = []
    rw [show mAll (.lit [')']) ((c :: t1) ++ ',' :: ' ' :: R)
        (setCap 3 ((((d :: dr) ++ ',' :: ' ' :: R : List Char)).take
          ((((d :: dr) ++ ',' :: ' ' :: R : List Char)).length
            - ((c :: t1) ++ ',' :: ' ' :: R : List Char).length)) caps)
        = (match litMatchCI [')'] (c :: (t1 ++ ',' :: ' ' :: R)) with
           | some t => [(t, setCap 3 ((((d :: dr) ++ ',' :: ' ' :: R : List Char)).take
                ((((d :: dr) ++ ',' :: ' ' :: R : List Char)).length
                  - ((c :: t1) ++ ',' :: ' ' :: R : List Char).length)) caps)]
           | none => []) from rfl]
    rw [litMatch_rparen_ten c hc]

/-- The post-`coltype` strict pattern fails outright on a
`(digits, digits)` argument. -/
theorem reColRest_dies_comma (ds1 R : List Char) (caps : Caps)
    (hne : ds1 ≠ []) (hten : ∀ c ∈ ds1, c ∈ tenChars) :
    mAll reColRest ('(' :: (ds1 ++ ',' :: ' ' :: R)) caps = [] := by
  rw [show reColRest = .seq reColArg reColTail from rfl, mAll_seq]
  rw [show reColArg = .opt true (.seq (.lit ['(']) (.seq (.grp 3 argAlts) (.lit [')']))) from rfl]
  rw [mAll_optT, argTake_dies_comma _ _ _ hne hten]
  rw [List.nil_append, List.flatMap_cons, List.flatMap_nil, List.append_nil]
  exact reColTail_dies '(' _ _ (by decide) rfl

/-- The post-`coltype` loose pattern on a `(digits, digits)` argument:
the argument group fails, the lazy tail matches without consuming, so the
head result carries no `arg` capture. -/
theorem reColLooseRest_head_comma (ds1 R : List Char) (caps : Caps)
    (hne : ds1 ≠ []) (hten : ∀ c ∈ ds1, c ∈ tenChars) :
    ∃ junk, mAll reColLooseRest ('(' :: (ds1 ++ ',' :: ' ' :: R)) caps =
      (('(' :: (ds1 ++ ',' :: ' ' :: R) : List Char), caps) :: junk := by
  rw [show reColLooseRest = .seq reColLooseArg reColLooseTail from rfl, mAll_seq]
  rw [show reColLooseArg = .opt true (.seq (.lit ['(']) (.seq (.grp 3 argLoose) (.lit [')']))) from rfl]
  rw [mAll_optT, argLooseTake_dies_comma _ _ _ hne hten]
  rw [List.nil_append, List.flatMap_cons, List.flatMap_nil, List.append_nil]
  rw [show reColLooseTail = .seq (.star false (.cls dotB))
      (.opt true (.grp 4 (.lit "NOT NULL".data))) from rfl, mAll_seq]
  obtain ⟨t, ht⟩ := mAll_star_lazy_cons (.cls dotB) ('(' :: (ds1 ++ ',' :: ' ' :: R)) caps
  rw [ht, List.flatMap_cons]
  rw [show mAll (.opt true (.grp 4 (.lit "NOT NULL".data)))
      ('(' :: (ds1 ++ ',' :: ' ' :: R)) caps
      = [(('(' :: (ds1 ++ ',' :: ' ' :: R) : List Char), caps)] from rfl]
  exact ⟨t.flatMap fun r => mAll (.opt true (.grp 4 (.lit "NOT NULL".data))) r.1 r.2, rfl⟩

/-- A rendered `KEYWORD(d1, d2)...` column line has no strict-pattern
match at all. -/
theorem reColumn_strict_dies_comma (k : Char) (kr ds1 R : List Char)
    (hkword : wordCharB k = true) (hkr : ∀ c ∈ kr, wordCharB c = true)
    (hk : k ≠ ' ')
    (hne : ds1 ≠ []) (hten : ∀ c ∈ ds1, c ∈ tenChars)
    (hdies : ∀ t ∈ kr.tails, t ≠ [] → ∀ caps2 : Caps,
        mAll reColRest (t ++ '(' :: (ds1 ++ ',' :: ' ' :: R)) caps2 = []) :
    mAll reColumn ([' ', ' ', btick, 'c', btick, ' '] ++
      ((k :: kr) ++ '(' :: (ds1 ++ ',' :: ' ' :: R))) [] = [] := by
  rw [show ((k :: kr) ++ '(' :: (ds1 ++ ',' :: ' ' :: R) : List Char)
      = k :: (kr ++ '(' :: (ds1 ++ ',' :: ' ' :: R)) from rfl]
  rw [reColumn_lead k _ hk]
  rw [mAll_seq, mAll_grp, rep1, mAll_seq, mAll_cls_cons, if_pos hkword]
  rw [List.flatMap_cons, List.flatMap_nil, List.append_nil]
  rw [mAll_star_cls_runs _ _ _ _ hkr (by intro c hc; simp at hc; subst hc; rfl)]
  rw [List.flatMap_map]
  apply flatMap_runsList_nil
  intro t ht
  cases t with
  | nil =>
    show mAll reColRest ('(' :: (ds1 ++ ',' :: ' ' :: R)) _ = []
    exact reColRest_dies_comma _ _ _ hne hten
  | cons c t1 =>
    show mAll reColRest ((c :: t1) ++ '(' :: (ds1 ++ ',' :: ' ' :: R)) _ = []
    exact hdies (c :: t1) ht (by simp) _

/-- The loose pattern's first match on such a line captures just the name
and the keyword: the argument group contributes nothing. -/
theorem reColumnLoose_head_comma (k : Char) (kr ds1 R : List Char)
    (hkword : wordCharB k = true) (hkr : ∀ c ∈ kr, wordCharB c = true)
    (hk : k ≠ ' ')
    (hne : ds1 ≠ []) (hten : ∀ c ∈ ds1, c ∈ tenChars) :
    ∃ junk, mAll reColumnLoose ([' ', ' ', btick, 'c', btick, ' '] ++
      ((k :: kr) ++ '(' :: (ds1 ++ ',' :: ' ' :: R))) [] =
      (('(' :: (ds1 ++ ',' :: ' ' :: R) : List Char),
        setCap 2 (k :: kr) (setCap 1 ['c'] [])) :: junk := by
  rw [show ((k :: kr) ++ '(' :: (ds1 ++ ',' :: ' ' :: R) : List Char)
      = k :: (kr ++ '(' :: (ds1 ++ ',' :: ' ' :: R)) from rfl]
  rw [reColumnLoose_lead k _ hk]
  rw [mAll_seq, mAll_grp, rep1, mAll_seq, mAll_cls_cons, if_pos hkword]
  rw [List.flatMap_cons, List.flatMap_nil, List.append_nil]
  rw [mAll_star_cls_runs _ _ _ _ hkr (by intro c hc; simp at hc; subst hc; rfl)]
  rw [List.flatMap_map]
  obtain ⟨rt, hrt⟩ := runsList_head kr ('(' :: (ds1 ++ ',' :: ' ' :: R)) (setCap 1 ['c'] [])
  rw [hrt, List.flatMap_cons]
  dsimp only
  obtain ⟨junk1, hj1⟩ := reColLooseRest_head_comma ds1 R
    (setCap 2 (k :: kr) (setCap 1 ['c'] [])) hne hten
  rw [show (k :: (kr ++ '(' :: (ds1 ++ ',' :: ' ' :: R)) : List Char)
      = (k :: kr) ++ ('(' :: (ds1 ++ ',' :: ' ' :: R)) from rfl]
  rw [take_sub_append]
  rw [hj1]
  exact ⟨junk1 ++ _, by rw [List.cons_append]⟩

theorem roundtrip_numeric (p q : Nat) (u z : Bool) :
    (parse_column (mkColumnLine (.numeric (some (.num p)) (some (.num q)) u z))).map specSummary =
      some ⟨"numeric".data, [], false, false, false⟩ := by
  have hds : natDigits p ≠ [] := natDigits_ne_nil p
  have hten : ∀ c ∈ natDigits p, c ∈ tenChars := natDigits_mem p
  have hcompile : mkColumnLine (.numeric (some (.num p)) (some (.num q)) u z) =
      [' ', ' ', btick, 'c', btick, ' '] ++
        (('N' :: "UMERIC".data) ++ '(' :: (natDigits p ++ ',' :: ' ' ::
          (natDigits q ++ ')' ::
            ((if u then " UNSIGNED".data else []) ++
             (if z then " ZEROFILL".data else []))))) := by
    rw [mkColumnLine]
    cases u <;> cases z <;>
      simp [typeCompile, extend_numeric, mysql_type, isMSNumericT, isStringTypeT,
        isMSIntegerT, isBinaryTypeT, unsignedFlag, zerofillFlag, targStr, targOptStr,
        List.append_assoc]
  rw [hcompile, parse_column]
  rw [show reMatch reColumn ([' ', ' ', btick, 'c', btick, ' '] ++
      (('N' :: "UMERIC".data) ++ '(' :: (natDigits p ++ ',' :: ' ' ::
        (natDigits q ++ ')' ::
          ((if u then " UNSIGNED".data else []) ++
           (if z then " ZEROFILL".data else [])))))) = none from by
    rw [reMatch, reColumn_strict_dies_comma 'N' "UMERIC".data (natDigits p) _
      (by decide) (by decide) (by decide) hds hten
      (fun t ht hne2 caps2 => by
        fin_cases ht <;>
          first
            | exact absurd rfl hne2
            | exact reColRest_dies _ _ _ (by decide) rfl rfl)]]
  obtain ⟨junk, hj⟩ := reColumnLoose_head_comma 'N' "UMERIC".data (natDigits p)
    (natDigits q ++ ')' ::
      ((if u then " UNSIGNED".data else []) ++ (if z then " ZEROFILL".data else [])))
    (by decide) (by decide) (by decide) hds hten
  rw [show reMatch reColumnLoose ([' ', ' ', btick, 'c', btick, ' '] ++
      (('N' :: "UMERIC".data) ++ '(' :: (natDigits p ++ ',' :: ' ' ::
        (natDigits q ++ ')' ::
          ((if u then " UNSIGNED".data else []) ++
           (if z then " ZEROFILL".data else [])))))) =
      some (setCap 2 ('N' :: "UMERIC".data) (setCap 1 ['c'] [])) from by
    rw [reMatch, hj]]
  rfl

theorem roundtrip_decimal (p q : Nat) (u z : Bool) :
    (parse_column (mkColumnLine (.decimal (some (.num p)) (some (.num q)) u z))).map specSummary =
      some ⟨"decimal".data, [], false, false, false⟩ := by
  have hds : natDigits p ≠ [] := natDigits_ne_nil p
  have hten : ∀ c ∈ natDigits p, c ∈ tenChars := natDigits_mem p
  have hcompile : mkColumnLine (.decimal (some (.num p)) (some (.num q)) u z) =
      [' ', ' ', btick, 'c', btick, ' '] ++
        (('D' :: "ECIMAL".data) ++ '(' :: (natDigits p ++ ',' :: ' ' ::
          (natDigits q ++ ')' ::
            ((if u then " UNSIGNED".data else []) ++
             (if z then " ZEROFILL".data else []))))) := by
    rw [mkColumnLine]
    cases u <;> cases z <;>
      simp [typeCompile, extend_numeric, mysql_type, isMSNumericT, isStringTypeT,
        isMSIntegerT, isBinaryTypeT, unsignedFlag, zerofillFlag, targStr, targOptStr,
        List.append_assoc]
  rw [hcompile, parse_column]
  rw [show reMatch reColumn ([' ', ' ', btick, 'c', btick, ' '] ++
      (('D' :: "ECIMAL".data) ++ '(' :: (natDigits p ++ ',' :: ' ' ::
        (natDigits q ++ ')' ::
          ((if u then " UNSIGNED".data else []) ++
           (if z then " ZEROFILL".data else [])))))) = none from by
    rw [reMatch, reColumn_strict_dies_comma 'D' "ECIMAL".data (natDigits p) _
      (by decide) (by decide) (by decide) hds hten
      (fun t ht hne2 caps2 => by
        fin_cases ht <;>
          first
            | exact absurd rfl hne2
            | exact reColRest_dies _ _ _ (by decide) rfl rfl)]]
  obtain ⟨junk, hj⟩ := reColumnLoose_head_comma 'D' "ECIMAL".data (natDigits p)
    (natDigits q ++ ')' ::
      ((if u then " UNSIGNED".data else []) ++ (if z then " ZEROFILL".data else [])))
    (by decide) (by decide) (by decide) hds hten
  rw [show reMatch reColumnLoose ([' ', ' ', btick, 'c', btick, ' '] ++
      (('D' :: "ECIMAL".data) ++ '(' :: (natDigits p ++ ',' :: ' ' ::
        (natDigits q ++ ')' ::
          ((if u then " UNSIGNED".data else []) ++
           (if z then " ZEROFILL".data else [])))))) =
      some (setCap 2 ('D' :: "ECIMAL".data) (setCap 1 ['c'] [])) from by
    rw [reMatch, hj]]
  rfl

/-- C1: render-then-parse round-trip.  As claimed it fails for
NUMERIC/DECIMAL (see the counterexample); amended: the five integer
families round-trip tag, width argument and both flags for every width;
VARCHAR (positive length) and CHAR round-trip tag and length; NUMERIC and
DECIMAL with precision and scale fall back to the loose pattern, which
loses the arguments, the flags, and the `full` mark. -/
theorem claim1_theorem (w n p q : Nat) (u z : Bool) (hn : 0 < n) :
    ((parse_column (mkColumnLine (.integer (some (.num w)) u z))).map specSummary =
      some ⟨"integer".data, [TArg.num w], u, z, true⟩) ∧
    ((parse_column (mkColumnLine (.bigint (some (.num w)) u z))).map specSummary =
      some ⟨"bigint".data, [TArg.num w], u, z, true⟩) ∧
    ((parse_column (mkColumnLine (.mediumint (some (.num w)) u z))).map specSummary =
      some ⟨"mediumint".data, [TArg.num w], u, z, true⟩) ∧
    ((parse_column (mkColumnLine (.tinyint (some (.num w)) u z))).map specSummary =
      some ⟨"tinyint".data, [TArg.num w], u, z, true⟩) ∧
    ((parse_column (mkColumnLine (.smallint (some (.num w)) u z))).map specSummary =
      some ⟨"smallint".data, [TArg.num w], u, z, true⟩) ∧
    ((parse_column (mkColumnLine (.varchar (some (.num n)) {}))).map specSummary =
      some ⟨"varchar".data, [TArg.num n], false, false, true⟩) ∧
    ((parse_column (mkColumnLine (.char (some (.num n)) {}))).map specSummary =
      some ⟨"char".data, [TArg.num n], false, false, true⟩) ∧
    ((parse_column (mkColumnLine (.numeric (some (.num p)) (some (.num q)) u z))).map specSummary =
      some ⟨"numeric".data, [], false, false, false⟩) ∧
    ((parse_column (mkColumnLine (.decimal (some (.num p)) (some (.num q)) u z))).map specSummary =
      some ⟨"decimal".data, [], false, false, false⟩) :=
  ⟨roundtrip_integer w u z, roundtrip_bigint w u z, roundtrip_mediumint w u z,
    roundtrip_tinyint w u z, roundtrip_smallint w u z, roundtrip_varchar n hn,
    roundtrip_char n, roundtrip_numeric p q u z, roundtrip_decimal p q u z⟩

theorem claim1_witness :
    0 < 32 ∧
    (parse_column (mkColumnLine (.varchar (some (.num 32)) {}))).map specSummary =
      some ⟨"varchar".data, [TArg.num 32], false, false, true⟩ :=
  ⟨by decide, (claim1_theorem 11 32 10 2 true true (by decide)).2.2.2.2.2.1⟩

/-- C1 counterexample: `NUMERIC(10, 2) UNSIGNED` as the type compiler
renders it (space after the comma) does not round-trip: the strict
pattern's argument alternative `\d+,\d+` rejects the space, the loose
fallback drops the argument text and the flags entirely. -/
theorem claim1_counterexample :
    typeCompile (.numeric (some (.num 10)) (some (.num 2)) true false) =
      "NUMERIC(10, 2) UNSIGNED".data ∧
    (parse_column (mkColumnLine (.numeric (some (.num 10)) (some (.num 2)) true false))).map
        specSummary = some ⟨"numeric".data, [], false, false, false⟩ ∧
    (parse_column (mkColumnLine (.numeric (some (.num 10)) (some (.num 2)) true false))).map
        specSummary ≠
      some ⟨"numeric".data, [TArg.num 10, TArg.num 2], true, false, true⟩ := by
  refine ⟨by decide, ?_, ?_⟩ <;> decide
